import Mathlib

/-!
Verification development for the neighbor-sampling engine
(`src/graph/sampling/neighbor/neighbor.cc`).

The three public entry points `SampleNeighbors`, `SampleNeighborsTopk` and
`SampleNeighborsBiased` (and the shared skeleton `SampleGraphNeighbors`) are
embedded as pure Lean functions over an explicit heterogeneous-graph value.
Fatal `CHECK`/`LOG(FATAL)` failures are embedded as `Except.error`; the
external collaborators (graph container accessors, row-wise sampling / top-k
kernels, the edge-exclusion copy, the heterograph constructor) are not part of
the source file and are modelled from the specification, as marked on each
definition.  The randomness of the sampling kernels is made explicit through a
selector oracle argument; theorems quantify over the oracle.
-/

namespace DglSampling

/-- Edge direction relative to the frontier (`EdgeDir` in the source). -/
inductive EdgeDir where
  | kIn : EdgeDir
  | kOut : EdgeDir
deriving DecidableEq, Repr

/-- Sparse adjacency formats.  `kUnknown` stands for any format code outside
the three recognized kinds (the `default:` arm of the dispatch switch). -/
inductive SparseFormat where
  | kCOO : SparseFormat
  | kCSR : SparseFormat
  | kCSC : SparseFormat
  | kUnknown : SparseFormat
deriving DecidableEq, Repr

/-- A sparse matrix in coordinate form: dimensions plus a list of
`(row, column, edge-identity)` entries (`COOMatrix` in the source; the
`row`/`col`/`data` parallel arrays are fused into one entry list). -/
structure COOMatrix where
  num_rows : Nat
  num_cols : Nat
  entries : List (Nat × Nat × Nat)
deriving DecidableEq, Repr

/-- The `row` array of a COO matrix. -/
def COOMatrix.row (m : COOMatrix) : List Nat :=
  m.entries.map (fun t => t.1)

/-- The `col` array of a COO matrix. -/
def COOMatrix.col (m : COOMatrix) : List Nat :=
  m.entries.map (fun t => t.2.1)

/-- The `data` (edge-identity) array of a COO matrix. -/
def COOMatrix.data (m : COOMatrix) : List Nat :=
  m.entries.map (fun t => t.2.2)

/-- Modelled from the spec: the external transpose primitive on a COO matrix
(`aten::COOTranspose`): swap rows and columns, keeping edge identities. -/
def COOTranspose (m : COOMatrix) : COOMatrix :=
  { num_rows := m.num_cols
    num_cols := m.num_rows
    entries := m.entries.map (fun t => (t.2.1, t.1, t.2.2)) }

/-- Per-edge-type weight/probability vector.  The numeric type of the weights
is irrelevant to the modelled behaviour (the weighted random draw is absorbed
into the selector oracle; top-k only compares weights), so weights are
modelled as integers. -/
abbrev FloatArray := List Int

/-- A dense tensor, of which only the shape and flat contents matter here
(`NDArray` in the source). -/
structure NDArray where
  shape : List Nat
  vals : List Int
deriving DecidableEq, Repr

/-- Modelled from the spec: one row's selection inside the external row-wise
sampling kernels.  From the row's available edge list `es`, with
`replace = false` and at least `q` edges unavailable the whole row is kept;
otherwise up to `q` edges are drawn, the draws (uniform or weighted) being
abstracted by the selector oracle `ch`. -/
def pickRow (ch : Nat → Nat) (q : Nat) (replace : Bool)
    (es : List (Nat × Nat × Nat)) : List (Nat × Nat × Nat) :=
  if !replace && es.length ≤ q then es
  else (List.range q).filterMap (fun i => es.get? (ch i % es.length))

/-- Modelled from the spec: the external row-wise sampling kernel
(`aten::COORowWiseSampling` / `aten::CSRRowWiseSampling`): independently per
frontier row, select up to `fanout` of that row's edges.  The probability
vector only influences which edges the random draw picks, which is abstracted
by the oracle `ch`, so it does not otherwise appear. -/
def rowWiseSampling (ch : Nat → Nat → Nat) (m : COOMatrix) (rows : List Nat)
    (fanout : Int) (prob : FloatArray) (replace : Bool) : COOMatrix :=
  let _ := prob
  { num_rows := m.num_rows
    num_cols := m.num_cols
    entries :=
      (rows.map (fun r =>
        pickRow (ch r) fanout.toNat replace
          (m.entries.filter (fun t => t.1 = r)))).flatten }

/-- Stable insertion of one element into a weight-sorted row (helper for the
modelled top-k kernel): an incoming element goes after every already placed
element that compares `le` to it, so equal weights keep input order. -/
def insertW {α : Type} (le : α → α → Bool) (x : α) : List α → List α
  | [] => [x]
  | y :: ys => if le y x then y :: insertW le x ys else x :: y :: ys

/-- Stable insertion sort by `le` (helper for the modelled top-k kernel). -/
def sortW {α : Type} (le : α → α → Bool) : List α → List α
  | [] => []
  | x :: xs => insertW le x (sortW le xs)

/-- Modelled from the spec: one row's selection inside the external row-wise
top-k kernels.  The `k` extreme-weight edges of the row, ascending or
descending per the flag, ties broken stably by input edge order. -/
def rowTopk (weight : FloatArray) (k : Nat) (ascending : Bool)
    (es : List (Nat × Nat × Nat)) : List (Nat × Nat × Nat) :=
  (sortW (fun a b =>
    if ascending then weight.getD a.2.2 0 ≤ weight.getD b.2.2 0
    else weight.getD b.2.2 0 ≤ weight.getD a.2.2 0) es).take k

/-- Modelled from the spec: the external row-wise top-k kernel
(`aten::COORowWiseTopk` / `aten::CSRRowWiseTopk`): per frontier row, keep the
`k` extreme-weight edges among that row's edges. -/
def rowWiseTopk (m : COOMatrix) (rows : List Nat) (k : Int)
    (weight : FloatArray) (ascending : Bool) : COOMatrix :=
  { num_rows := m.num_rows
    num_cols := m.num_cols
    entries :=
      (rows.map (fun r =>
        rowTopk weight k.toNat ascending
          (m.entries.filter (fun t => t.1 = r)))).flatten }

/-- Modelled from the spec: the external per-tag biased row-wise sampling
kernel (`aten::CSRRowWiseSamplingBiased`).  The tag-proportional random draw
is abstracted by the selector oracle, so `tag_offset` and `bias` do not
further constrain the modelled selection. -/
def rowWiseSamplingBiased (ch : Nat → Nat → Nat) (m : COOMatrix)
    (rows : List Nat) (fanout : Int) (tag_offset : NDArray) (bias : NDArray)
    (replace : Bool) : COOMatrix :=
  let _ := tag_offset
  let _ := bias
  { num_rows := m.num_rows
    num_cols := m.num_cols
    entries :=
      (rows.map (fun r =>
        pickRow (ch r) fanout.toNat replace
          (m.entries.filter (fun t => t.1 = r)))).flatten }

/-- A heterogeneous graph: per-type vertex counts, the meta-graph (one
`(source-vertex-type, destination-vertex-type)` pair per edge type), one
relation per edge type as a list of `(source, destination, edge-identity)`
triples in storage order, the per-relation `NumVertexTypes` of the relation
graph, and the external format machinery recorded as data: the answer of
`SelectFormat` to a CSR request (outbound) and to a CSC request (inbound) per
edge type, and the set of created formats (`GetCreatedFormats`). -/
structure HeteroGraph where
  numVerticesPerType : List Nat
  metaGraph : List (Nat × Nat)
  relations : List (List (Nat × Nat × Nat))
  relNumVtypes : List Nat
  fmtForOut : List SparseFormat
  fmtForIn : List SparseFormat
  createdFormats : List SparseFormat
deriving DecidableEq, Repr

/-- Number of vertex types (`NumVertexTypes`). -/
def HeteroGraph.numVertexTypes (g : HeteroGraph) : Nat :=
  g.numVerticesPerType.length

/-- Number of edge types (`NumEdgeTypes`). -/
def HeteroGraph.numEdgeTypes (g : HeteroGraph) : Nat :=
  g.metaGraph.length

/-- Vertex count of one vertex type (`NumVertices`). -/
def HeteroGraph.numVertices (g : HeteroGraph) (vtype : Nat) : Nat :=
  g.numVerticesPerType.getD vtype 0

/-- The relation of one edge type, as `(src, dst, edge-identity)` triples. -/
def HeteroGraph.rel (g : HeteroGraph) (etype : Nat) : List (Nat × Nat × Nat) :=
  g.relations.getD etype []

/-- The meta-graph lookup `meta_graph()->FindEdge(etype)`. -/
def HeteroGraph.findEdge (g : HeteroGraph) (etype : Nat) : Nat × Nat :=
  g.metaGraph.getD etype (0, 0)

/-- Basic well-formedness of a graph value: the per-edge-type lists all have
one entry per edge type. -/
def HeteroGraph.WF (g : HeteroGraph) : Prop :=
  g.relations.length = g.metaGraph.length ∧
  g.relNumVtypes.length = g.metaGraph.length ∧
  g.fmtForOut.length = g.metaGraph.length ∧
  g.fmtForIn.length = g.metaGraph.length

instance (g : HeteroGraph) : Decidable g.WF := by
  unfold HeteroGraph.WF
  infer_instance

/-- Modelled from the spec: the format-selection query
(`SelectFormat(etype, req_fmt)`), where the request is CSR for outbound and
CSC for inbound sampling; the answer per edge type is recorded in the graph
value since the selection machinery is an external collaborator. -/
def HeteroGraph.selectFormat (g : HeteroGraph) (etype : Nat) (dir : EdgeDir) :
    SparseFormat :=
  if dir = EdgeDir.kOut then g.fmtForOut.getD etype SparseFormat.kUnknown
  else g.fmtForIn.getD etype SparseFormat.kUnknown

/-- Modelled from the spec: adjacency retrieval in COO form
(`GetCOOMatrix(etype)`): rows are the relation's source side, columns its
destination side, entries the stored edges with their identities. -/
def HeteroGraph.GetCOOMatrix (g : HeteroGraph) (etype : Nat) : COOMatrix :=
  { num_rows := g.numVertices (g.findEdge etype).1
    num_cols := g.numVertices (g.findEdge etype).2
    entries := g.rel etype }

/-- Modelled from the spec: adjacency retrieval in CSR form
(`GetCSRMatrix(etype)`).  A CSR matrix compresses the source axis; at the
level of logical `(row, col, id)` entries consumed by the modelled row-wise
kernels it carries the same entries as the COO form. -/
def HeteroGraph.GetCSRMatrix (g : HeteroGraph) (etype : Nat) : COOMatrix :=
  g.GetCOOMatrix etype

/-- Modelled from the spec: adjacency retrieval in CSC form
(`GetCSCMatrix(etype)`).  A CSC matrix compresses the destination axis: its
natural row axis is the destination side, so its logical entries are the
transpose of the COO form's. -/
def HeteroGraph.GetCSCMatrix (g : HeteroGraph) (etype : Nat) : COOMatrix :=
  COOTranspose (g.GetCOOMatrix etype)

/-- Modelled from the spec: the full out-edge listing
(`OutEdges(etype, nodes)`): every edge of the relation whose source lies in
the frontier, in original edge order, each exactly once. -/
def HeteroGraph.OutEdges (g : HeteroGraph) (etype : Nat) (nodes : List Nat) :
    List (Nat × Nat × Nat) :=
  (g.rel etype).filter (fun t => decide (t.1 ∈ nodes))

/-- Modelled from the spec: the full in-edge listing
(`InEdges(etype, nodes)`): every edge of the relation whose destination lies
in the frontier, in original edge order, each exactly once. -/
def HeteroGraph.InEdges (g : HeteroGraph) (etype : Nat) (nodes : List Nat) :
    List (Nat × Nat × Nat) :=
  (g.rel etype).filter (fun t => decide (t.2.1 ∈ nodes))

/-- A single-relation graph used as an output slot (`UnitGraph`): the
relation graph's number of vertex types, the two side vertex counts, and the
edges as `(source, destination)` pairs (edge identities of a freshly built
unit graph are positional). -/
structure UnitGraph where
  numVtypes : Nat
  num_src : Nat
  num_dst : Nat
  edges : List (Nat × Nat)
deriving DecidableEq, Repr

/-- Modelled from the spec: the empty placeholder relation
(`UnitGraph::Empty`): correct vertex-count bounds, no edges.  The data type
and device context arguments of the source have no behavioural content here
and are omitted. -/
def UnitGraph.Empty (numVtypes num_src num_dst : Nat) : UnitGraph :=
  { numVtypes := numVtypes, num_src := num_src, num_dst := num_dst
    edges := [] }

/-- Modelled from the spec: building a unit graph from COO arrays
(`UnitGraph::CreateFromCOO`): the given parallel source/destination arrays
become the edges; no identity array is passed, so identities are fresh. -/
def UnitGraph.CreateFromCOO (numVtypes num_src num_dst : Nat)
    (src dst : List Nat) : UnitGraph :=
  { numVtypes := numVtypes, num_src := num_src, num_dst := num_dst
    edges := src.zip dst }

/-- Modelled from the spec: the external constructor that rebuilds a full
heterogeneous graph from a meta-graph, per-type relations and per-type vertex
counts (`CreateHeteroGraph`).  The rebuilt relations carry fresh positional
edge identities; the rebuilt per-relation storage is COO. -/
def CreateHeteroGraph (mg : List (Nat × Nat)) (subrels : List UnitGraph)
    (nv : List Nat) : HeteroGraph :=
  { numVerticesPerType := nv
    metaGraph := mg
    relations := subrels.map (fun u =>
      u.edges.enum.map (fun p => (p.2.1, p.2.2, p.1)))
    relNumVtypes := subrels.map (fun u => u.numVtypes)
    fmtForOut := subrels.map (fun _ => SparseFormat.kCOO)
    fmtForIn := subrels.map (fun _ => SparseFormat.kCOO)
    createdFormats := [SparseFormat.kCOO] }

/-- The sampled-subgraph return value (`HeteroSubgraph`): the rebuilt graph,
the per-vertex-type induced-vertex slots (reserved but unpopulated), and per
edge type either `some` induced-edge-identity array or `none` standing for
the source's `aten::NullArray()` marker. -/
structure HeteroSubgraph where
  graph : HeteroGraph
  induced_vertices : List (List Nat)
  induced_edges : List (Option (List Nat))
deriving DecidableEq, Repr

/-- Error-propagating map over a list: the per-edge-type loop of the source,
where a fatal error at any edge type aborts the whole call. -/
def mapME {β : Type} (f : Nat → Except String β) :
    List Nat → Except String (List β)
  | [] => Except.ok []
  | x :: xs =>
    match f x with
    | Except.error e => Except.error e
    | Except.ok b =>
      match mapME f xs with
      | Except.error e => Except.error e
      | Except.ok bs => Except.ok (b :: bs)

/-- The frontier node array relevant for one edge type: the source-type entry
for outbound sampling, the destination-type entry for inbound
(`nodes[(dir == EdgeDir::kOut) ? src_vtype : dst_vtype]`). -/
def relFrontier (hg : HeteroGraph) (nodes : List (List Nat)) (dir : EdgeDir)
    (etype : Nat) : List Nat :=
  nodes.getD
    (if dir = EdgeDir.kOut then (hg.findEdge etype).1
     else (hg.findEdge etype).2) []

/-- The full edge listing of one relation restricted to a frontier, in the
requested direction (the `earr` of the keep-all branch, source lines
44-46). -/
def incidentList (hg : HeteroGraph) (etype : Nat) (frontier : List Nat)
    (dir : EdgeDir) : List (Nat × Nat × Nat) :=
  if dir = EdgeDir.kOut then hg.OutEdges etype frontier
  else hg.InEdges etype frontier

/-- The keep-all edge listing of one edge type for a per-type frontier
request. -/
def incidentEdges (hg : HeteroGraph) (nodes : List (List Nat)) (dir : EdgeDir)
    (etype : Nat) : List (Nat × Nat × Nat) :=
  incidentList hg etype (relFrontier hg nodes dir etype) dir

/-- Packaging of one sampled COO matrix into an output slot: the source's
`UnitGraph::CreateFromCOO(..., sampled_coo.row, sampled_coo.col)` paired with
`sampled_coo.data` as the induced-edge-identity array. -/
def mkSampledSlot (hg : HeteroGraph) (etype : Nat) (sampled_coo : COOMatrix) :
    UnitGraph × Option (List Nat) :=
  (UnitGraph.CreateFromCOO (hg.relNumVtypes.getD etype 0)
      sampled_coo.num_rows sampled_coo.num_cols
      sampled_coo.row sampled_coo.col,
   some sampled_coo.data)

/-- The format-dispatch step of `SampleGraphNeighbors` (its `switch` over the
selected format in the general sampling branch, source lines 56-83). -/
def sampleDispatch (ch : Nat → Nat → Nat) (hg : HeteroGraph)
    (frontier : List Nat) (fanout : Int) (dir : EdgeDir) (prob : FloatArray)
    (replace : Bool) (etype : Nat) : Except String COOMatrix :=
  match hg.selectFormat etype dir with
  | SparseFormat.kCOO =>
    if dir = EdgeDir.kIn then
      Except.ok (COOTranspose (rowWiseSampling ch
        (COOTranspose (hg.GetCOOMatrix etype)) frontier fanout prob replace))
    else
      Except.ok (rowWiseSampling ch
        (hg.GetCOOMatrix etype) frontier fanout prob replace)
  | SparseFormat.kCSR =>
    if dir = EdgeDir.kOut then
      Except.ok (rowWiseSampling ch
        (hg.GetCSRMatrix etype) frontier fanout prob replace)
    else Except.error "Cannot sample out edges on CSC matrix."
  | SparseFormat.kCSC =>
    if dir = EdgeDir.kIn then
      Except.ok (COOTranspose (rowWiseSampling ch
        (hg.GetCSCMatrix etype) frontier fanout prob replace))
    else Except.error "Cannot sample in edges on CSR matrix."
  | SparseFormat.kUnknown => Except.error "Unsupported sparse format."

/-- The per-edge-type body of `SampleGraphNeighbors` (source lines 29-88):
the degenerate-case ladder (empty frontier or zero fanout, keep-all), then
format dispatch. -/
def sampleOneRel (ch : Nat → Nat → Nat) (hg : HeteroGraph)
    (nodes : List (List Nat)) (fanout : Int) (dir : EdgeDir)
    (prob : FloatArray) (replace : Bool) (etype : Nat) :
    Except String (UnitGraph × Option (List Nat)) :=
  if (relFrontier hg nodes dir etype).length = 0 ∨ fanout = 0 then
    Except.ok (UnitGraph.Empty (hg.relNumVtypes.getD etype 0)
      (hg.numVertices (hg.findEdge etype).1)
      (hg.numVertices (hg.findEdge etype).2), none)
  else if fanout = -1 then
    Except.ok (UnitGraph.CreateFromCOO (hg.relNumVtypes.getD etype 0)
      (hg.numVertices (hg.findEdge etype).1)
      (hg.numVertices (hg.findEdge etype).2)
      ((incidentEdges hg nodes dir etype).map (fun t => t.1))
      ((incidentEdges hg nodes dir etype).map (fun t => t.2.1)),
      some ((incidentEdges hg nodes dir etype).map (fun t => t.2.2)))
  else
    (sampleDispatch ch hg (relFrontier hg nodes dir etype) fanout dir prob
        replace etype).map
      (fun sampled_coo => mkSampledSlot hg etype sampled_coo)

/-- `SampleGraphNeighbors` (source lines 20-96): run the per-edge-type body
over every edge type and assemble the sampled subgraph. -/
def SampleGraphNeighbors (ch : Nat → Nat → Nat → Nat) (hg : HeteroGraph)
    (nodes : List (List Nat)) (fanouts : List Int) (dir : EdgeDir)
    (prob : List FloatArray) (replace : Bool) :
    Except String HeteroSubgraph :=
  match mapME (fun etype => sampleOneRel (ch etype) hg nodes
      (fanouts.getD etype 0) dir (prob.getD etype []) replace etype)
      (List.range hg.numEdgeTypes) with
  | Except.error e => Except.error e
  | Except.ok results =>
    Except.ok
      { graph := CreateHeteroGraph hg.metaGraph (results.map (fun r => r.1))
          hg.numVerticesPerType
        induced_vertices := List.replicate hg.numVertexTypes []
        induced_edges := results.map (fun r => r.2) }

/-- The branch condition of the Exclusion Preprocessor (source line 115): the
filtering copy is skipped iff the exclusion vector itself has no entries
(`!exclude_edges.empty()` negated). -/
def exclusionFilterSkipped (exclude_edges : List (List Nat)) : Bool :=
  exclude_edges.isEmpty

/-- Modelled from the spec: the Exclusion Preprocessor's filtered copy
(source lines 116-125, `Edges` / `excludeCertainEids` / `EdgeSubgraph` being
external): a copy of the graph containing every edge except those whose
identity is in the exclusion set for its type, all other edges keeping their
identities unchanged.  The source indexes `exclude_edges[etype]` for every
edge type without validating the vector's length; an out-of-range access
(C++ undefined behaviour) is modelled as a failure. -/
def excludeGraphEdges (hg : HeteroGraph) (exclude_edges : List (List Nat)) :
    Except String HeteroGraph :=
  match mapME (fun etype =>
      match exclude_edges.get? etype with
      | none => Except.error "out-of-bounds access on exclude_edges"
      | some ex =>
        Except.ok ((hg.rel etype).filter (fun t => decide (t.2.2 ∉ ex))))
      (List.range hg.numEdgeTypes) with
  | Except.error e => Except.error e
  | Except.ok rels => Except.ok { hg with relations := rels }

/-- `SampleNeighbors` (source lines 98-131): shape checks, optional
exclusion filtering, then the shared skeleton. -/
def SampleNeighbors (ch : Nat → Nat → Nat → Nat) (hg : HeteroGraph)
    (nodes : List (List Nat)) (fanouts : List Int) (dir : EdgeDir)
    (prob : List FloatArray) (exclude_edges : List (List Nat))
    (replace : Bool) : Except String HeteroSubgraph :=
  if nodes.length ≠ hg.numVertexTypes then
    Except.error "Number of node ID tensors must match the number of node types."
  else if fanouts.length ≠ hg.numEdgeTypes then
    Except.error "Number of fanout values must match the number of edge types."
  else if prob.length ≠ hg.numEdgeTypes then
    Except.error "Number of probability tensors must match the number of edge types."
  else if exclusionFilterSkipped exclude_edges then
    SampleGraphNeighbors ch hg nodes fanouts dir prob replace
  else
    match excludeGraphEdges hg exclude_edges with
    | Except.error e => Except.error e
    | Except.ok hg2 => SampleGraphNeighbors ch hg2 nodes fanouts dir prob replace

/-- The format-dispatch step of `SampleNeighborsTopk` (source lines
177-204). -/
def topkDispatch (hg : HeteroGraph) (frontier : List Nat) (k : Int)
    (dir : EdgeDir) (weight : FloatArray) (ascending : Bool) (etype : Nat) :
    Except String COOMatrix :=
  match hg.selectFormat etype dir with
  | SparseFormat.kCOO =>
    if dir = EdgeDir.kIn then
      Except.ok (COOTranspose (rowWiseTopk
        (COOTranspose (hg.GetCOOMatrix etype)) frontier k weight ascending))
    else
      Except.ok (rowWiseTopk (hg.GetCOOMatrix etype) frontier k weight ascending)
  | SparseFormat.kCSR =>
    if dir = EdgeDir.kOut then
      Except.ok (rowWiseTopk (hg.GetCSRMatrix etype) frontier k weight ascending)
    else Except.error "Cannot sample out edges on CSC matrix."
  | SparseFormat.kCSC =>
    if dir = EdgeDir.kIn then
      Except.ok (COOTranspose (rowWiseTopk
        (hg.GetCSCMatrix etype) frontier k weight ascending))
    else Except.error "Cannot sample in edges on CSR matrix."
  | SparseFormat.kUnknown => Except.error "Unsupported sparse format."

/-- The per-edge-type body of `SampleNeighborsTopk` (source lines 150-209). -/
def topkOneRel (hg : HeteroGraph) (nodes : List (List Nat)) (k : Int)
    (dir : EdgeDir) (weight : FloatArray) (ascending : Bool) (etype : Nat) :
    Except String (UnitGraph × Option (List Nat)) :=
  if (relFrontier hg nodes dir etype).length = 0 ∨ k = 0 then
    Except.ok (UnitGraph.Empty (hg.relNumVtypes.getD etype 0)
      (hg.numVertices (hg.findEdge etype).1)
      (hg.numVertices (hg.findEdge etype).2), none)
  else if k = -1 then
    Except.ok (UnitGraph.CreateFromCOO (hg.relNumVtypes.getD etype 0)
      (hg.numVertices (hg.findEdge etype).1)
      (hg.numVertices (hg.findEdge etype).2)
      ((incidentEdges hg nodes dir etype).map (fun t => t.1))
      ((incidentEdges hg nodes dir etype).map (fun t => t.2.1)),
      some ((incidentEdges hg nodes dir etype).map (fun t => t.2.2)))
  else
    (topkDispatch hg (relFrontier hg nodes dir etype) k dir weight ascending
        etype).map
      (fun sampled_coo => mkSampledSlot hg etype sampled_coo)

/-- `SampleNeighborsTopk` (source lines 133-217): shape checks, then the
per-edge-type top-k loop and subgraph assembly. -/
def SampleNeighborsTopk (hg : HeteroGraph) (nodes : List (List Nat))
    (k : List Int) (dir : EdgeDir) (weight : List FloatArray)
    (ascending : Bool) : Except String HeteroSubgraph :=
  if nodes.length ≠ hg.numVertexTypes then
    Except.error "Number of node ID tensors must match the number of node types."
  else if k.length ≠ hg.numEdgeTypes then
    Except.error "Number of k values must match the number of edge types."
  else if weight.length ≠ hg.numEdgeTypes then
    Except.error "Number of weight tensors must match the number of edge types."
  else
    match mapME (fun etype => topkOneRel hg nodes (k.getD etype 0) dir
        (weight.getD etype []) ascending etype)
        (List.range hg.numEdgeTypes) with
    | Except.error e => Except.error e
    | Except.ok results =>
      Except.ok
        { graph := CreateHeteroGraph hg.metaGraph (results.map (fun r => r.1))
            hg.numVerticesPerType
          induced_vertices := List.replicate hg.numVertexTypes []
          induced_edges := results.map (fun r => r.2) }

/-- The frontier-side node type of the biased entry point (source line 232):
the relation's source type for outbound, destination type for inbound. -/
def biasedFrontierVtype (hg : HeteroGraph) (dir : EdgeDir) : Nat :=
  if dir = EdgeDir.kOut then (hg.findEdge 0).1 else (hg.findEdge 0).2

/-- The per-relation body of `SampleNeighborsBiased` (source lines 241-289):
the degenerate-case ladder on edge type 0, then the requested-format dispatch
requiring a created (sorted) CSR/CSC matrix.

Note on the keep-all branch (source lines 253-263): unlike the other two
entry points, where `nodes_ntype` is the frontier array, here `nodes_ntype`
is the frontier-side node TYPE id (a scalar `dgl_type_t`, source line 232),
and it is this scalar — not the frontier array `nodes` — that the source
passes to `OutEdges`/`InEdges`.  The external listing invoked with a scalar
is modelled as the listing for the single vertex whose id equals that type
id; under any resolution of that call, the argument does not depend on the
contents of the frontier array. -/
def biasedOneRel (ch : Nat → Nat → Nat) (hg : HeteroGraph) (nodes : List Nat)
    (fanout : Int) (bias : NDArray) (tag_offset : NDArray) (dir : EdgeDir)
    (replace : Bool) : Except String (UnitGraph × Option (List Nat)) :=
  if nodes.length = 0 ∨ fanout = 0 then
    Except.ok (UnitGraph.Empty (hg.relNumVtypes.getD 0 0)
      (hg.numVertices (hg.findEdge 0).1)
      (hg.numVertices (hg.findEdge 0).2), none)
  else if fanout = -1 then
    Except.ok (UnitGraph.CreateFromCOO (hg.relNumVtypes.getD 0 0)
      (hg.numVertices (hg.findEdge 0).1)
      (hg.numVertices (hg.findEdge 0).2)
      ((incidentList hg 0 [biasedFrontierVtype hg dir] dir).map
        (fun t => t.1))
      ((incidentList hg 0 [biasedFrontierVtype hg dir] dir).map
        (fun t => t.2.1)),
      some ((incidentList hg 0 [biasedFrontierVtype hg dir] dir).map
        (fun t => t.2.2)))
  else if dir = EdgeDir.kOut then
    if SparseFormat.kCSR ∈ hg.createdFormats then
      Except.ok (mkSampledSlot hg 0 (rowWiseSamplingBiased ch
        (hg.GetCSRMatrix 0) nodes fanout tag_offset bias replace))
    else Except.error "A sorted CSR Matrix is required."
  else
    if SparseFormat.kCSC ∈ hg.createdFormats then
      Except.ok (mkSampledSlot hg 0 (COOTranspose
        (rowWiseSamplingBiased ch
          (hg.GetCSCMatrix 0) nodes fanout tag_offset bias replace)))
    else Except.error "A sorted CSC Matrix is required."

/-- `SampleNeighborsBiased` (source lines 219-296): single-edge-type check,
tag-offset shape checks, then the per-relation ladder and subgraph
assembly. -/
def SampleNeighborsBiased (ch : Nat → Nat → Nat) (hg : HeteroGraph)
    (nodes : List Nat) (fanout : Int) (bias : NDArray) (tag_offset : NDArray)
    (dir : EdgeDir) (replace : Bool) : Except String HeteroSubgraph :=
  if hg.numEdgeTypes ≠ 1 then
    Except.error "Only homogeneous or bipartite graphs are supported"
  else
    if tag_offset.shape.length ≠ 2 then
      Except.error "The shape of tag_offset should be [num_nodes, num_tags + 1]"
    else if tag_offset.shape.getD 0 0 ≠
        hg.numVertices (biasedFrontierVtype hg dir) then
      Except.error "The shape of tag_offset should be [num_nodes, num_tags + 1]"
    else if tag_offset.shape.getD 1 0 ≠ bias.shape.getD 0 0 + 1 then
      Except.error "The sizes of tag_offset and bias are inconsistent"
    else
      match biasedOneRel ch hg nodes fanout bias tag_offset dir replace with
      | Except.error e => Except.error e
      | Except.ok (subrel, induced_edges) =>
        Except.ok
          { graph := CreateHeteroGraph hg.metaGraph [subrel]
              hg.numVerticesPerType
            induced_vertices := List.replicate hg.numVertexTypes []
            induced_edges := [induced_edges] }

/-- The specification's description of the keep-all (`fanout == -1`) result:
the set of edges incident to the frontier in the requested direction, in
original edge order, with multiplicity one. -/
def specIncidentEdges (g : HeteroGraph) (etype : Nat) (frontier : List Nat)
    (dir : EdgeDir) : List (Nat × Nat × Nat) :=
  (g.rel etype).filter (fun t =>
    decide ((if dir = EdgeDir.kOut then t.1 else t.2.1) ∈ frontier))

/-- First projection of an `Except`, with a default for the error case
(used to name concrete successful results in closed statements). -/
def okOr {α : Type} (x : Except String α) (d : α) : α :=
  match x with
  | Except.ok v => v
  | Except.error _ => d

instance exceptDecEq {ε α : Type} [DecidableEq ε] [DecidableEq α] :
    DecidableEq (Except ε α)
  | Except.error a, Except.error b =>
    if h : a = b then isTrue (by rw [h])
    else isFalse (by intro hc; cases hc; exact h rfl)
  | Except.error _, Except.ok _ => isFalse (by intro hc; cases hc)
  | Except.ok _, Except.error _ => isFalse (by intro hc; cases hc)
  | Except.ok a, Except.ok b =>
    if h : a = b then isTrue (by rw [h])
    else isFalse (by intro hc; cases hc; exact h rfl)

/-- A trivial selector oracle (three-argument form used by the uniform
sampler entry points). -/
def oracle0 : Nat → Nat → Nat → Nat := fun _ _ _ => 0

/-- A trivial selector oracle (two-argument form used by the kernels and the
biased entry point). -/
def oracle2 : Nat → Nat → Nat := fun _ _ => 0

/-- A concrete two-vertex-type, two-edge-type graph used to instantiate
theorems with hypotheses. -/
def gA : HeteroGraph :=
  { numVerticesPerType := [2, 3]
    metaGraph := [(0, 1), (0, 1)]
    relations := [[(0, 0, 0), (0, 1, 1), (1, 1, 2), (1, 2, 3)],
                  [(0, 0, 0), (1, 2, 1)]]
    relNumVtypes := [2, 2]
    fmtForOut := [SparseFormat.kCOO, SparseFormat.kCOO]
    fmtForIn := [SparseFormat.kCOO, SparseFormat.kCOO]
    createdFormats := [SparseFormat.kCSR, SparseFormat.kCSC] }

/-- A concrete one-vertex-type, one-edge-type graph whose inbound format
selection answers CSR, so that inbound sampling hits the fatal
direction/format check. -/
def gB : HeteroGraph :=
  { numVerticesPerType := [3]
    metaGraph := [(0, 0)]
    relations := [[(0, 1, 0), (1, 2, 1)]]
    relNumVtypes := [1]
    fmtForOut := [SparseFormat.kCSR]
    fmtForIn := [SparseFormat.kCSR]
    createdFormats := [SparseFormat.kCSR] }

/-- A concrete one-vertex-type, one-edge-type, one-edge graph stored as COO
with a sorted CSR also created (for the biased entry point). -/
def g1 : HeteroGraph :=
  { numVerticesPerType := [2]
    metaGraph := [(0, 0)]
    relations := [[(0, 1, 0)]]
    relNumVtypes := [1]
    fmtForOut := [SparseFormat.kCOO]
    fmtForIn := [SparseFormat.kCOO]
    createdFormats := [SparseFormat.kCSR] }

/-- A concrete graph whose inbound format selection answers CSC (for the
orientation property of the CSC sampling arm). -/
def gCSC : HeteroGraph :=
  { numVerticesPerType := [2]
    metaGraph := [(0, 0)]
    relations := [[(0, 1, 0)]]
    relNumVtypes := [1]
    fmtForOut := [SparseFormat.kCSR]
    fmtForIn := [SparseFormat.kCSC]
    createdFormats := [SparseFormat.kCSR, SparseFormat.kCSC] }

/-- The result of a concrete successful `SampleNeighbors` call on `gA`. -/
def sgA : HeteroSubgraph :=
  okOr (SampleNeighbors oracle0 gA [[0], [0]] [1, 1] EdgeDir.kOut [[], []]
    [] false) ⟨gA, [], []⟩

/-- The result of a concrete successful `SampleNeighborsTopk` call on
`gA`. -/
def sgT : HeteroSubgraph :=
  okOr (SampleNeighborsTopk gA [[0], [0]] [1, 1] EdgeDir.kOut [[], []]
    false) ⟨gA, [], []⟩

/-- The result of a concrete successful `SampleNeighborsBiased` call on
`g1`. -/
def sgB : HeteroSubgraph :=
  okOr (SampleNeighborsBiased oracle2 g1 [0] 1 ⟨[1], [5]⟩
    ⟨[2, 2], [0, 1, 0, 1]⟩ EdgeDir.kOut false) ⟨g1, [], []⟩

/-- The result of a concrete `SampleGraphNeighbors` call on `gA` with zero
fanout at edge type 0. -/
def sgZ : HeteroSubgraph :=
  okOr (SampleGraphNeighbors oracle0 gA [[0], [0]] [0, 5] EdgeDir.kOut
    [[], []] false) ⟨gA, [], []⟩

/-- The result of a concrete `SampleNeighborsTopk` call on `gA` with zero k
at edge type 0. -/
def sgZT : HeteroSubgraph :=
  okOr (SampleNeighborsTopk gA [[0], [0]] [0, 5] EdgeDir.kOut [[], []]
    false) ⟨gA, [], []⟩

/-- The result of a concrete keep-all (`fanout = -1`) `SampleNeighbors` call
on `gA`. -/
def sgK : HeteroSubgraph :=
  okOr (SampleNeighbors oracle0 gA [[0], [0]] [-1, -1] EdgeDir.kOut [[], []]
    [] false) ⟨gA, [], []⟩

/-- The result of a concrete keep-all (`k = -1`) `SampleNeighborsTopk` call
on `gA`. -/
def sgKT : HeteroSubgraph :=
  okOr (SampleNeighborsTopk gA [[0], [0]] [-1, -1] EdgeDir.kOut [[], []]
    false) ⟨gA, [], []⟩

/-- The filtered copy of `gA` with edge identity 1 of edge type 0
excluded. -/
def gAexcl : HeteroGraph :=
  okOr (excludeGraphEdges gA [[1], []]) gA

/-- The result of a concrete keep-all `SampleNeighbors` call on `gA` with
edge identity 1 of edge type 0 excluded. -/
def sgX : HeteroSubgraph :=
  okOr (SampleNeighbors oracle0 gA [[0], [0]] [-1, -1] EdgeDir.kOut [[], []]
    [[1], []] false) ⟨gA, [], []⟩

/-! Helper lemmas on the error-propagating loop. -/

theorem getD_get? {α : Type} (l : List α) (i : Nat) (d : α) :
    l.getD i d = (l.get? i).getD d := by
  rw [List.get?_eq_getElem?]
  exact List.getD_eq_getElem?_getD l i d

theorem mapME_ok_length {β : Type} {f : Nat → Except String β} {l : List Nat}
    {rs : List β} (h : mapME f l = Except.ok rs) : rs.length = l.length := by
  induction l generalizing rs with
  | nil =>
    simp only [mapME] at h
    cases h
    rfl
  | cons x xs ih =>
    simp only [mapME] at h
    cases hfx : f x with
    | error e => rw [hfx] at h; cases h
    | ok b =>
      rw [hfx] at h
      cases hrec : mapME f xs with
      | error e => rw [hrec] at h; cases h
      | ok bs =>
        rw [hrec] at h
        cases h
        simp [ih hrec]

theorem mapME_ok_get? {β : Type} {f : Nat → Except String β} {l : List Nat}
    {rs : List β} (h : mapME f l = Except.ok rs) :
    ∀ i a, l.get? i = some a →
      ∃ r, f a = Except.ok r ∧ rs.get? i = some r := by
  induction l generalizing rs with
  | nil => intro i a hga; simp at hga
  | cons x xs ih =>
    simp only [mapME] at h
    cases hfx : f x with
    | error e => rw [hfx] at h; cases h
    | ok b =>
      rw [hfx] at h
      cases hrec : mapME f xs with
      | error e => rw [hrec] at h; cases h
      | ok bs =>
        rw [hrec] at h
        cases h
        intro i a hga
        cases i with
        | zero =>
          cases hga
          exact ⟨b, hfx, rfl⟩
        | succ j => exact ih hrec j a hga

theorem mapME_ok_forall {β : Type} {f : Nat → Except String β} {l : List Nat}
    {rs : List β} (h : mapME f l = Except.ok rs) :
    ∀ x ∈ l, ∃ r, f x = Except.ok r := by
  induction l generalizing rs with
  | nil => intro x hx; simp at hx
  | cons y ys ih =>
    simp only [mapME] at h
    cases hfy : f y with
    | error e => rw [hfy] at h; cases h
    | ok b =>
      rw [hfy] at h
      cases hrec : mapME f ys with
      | error e => rw [hrec] at h; cases h
      | ok bs =>
        intro x hx
        rcases List.mem_cons.mp hx with hx | hx
        · exact ⟨b, hx ▸ hfy⟩
        · exact ih hrec x hx

theorem mapME_error_of_elem {β : Type} {f : Nat → Except String β}
    {l : List Nat} {x : Nat} (hx : x ∈ l)
    (he : ∀ r, f x ≠ Except.ok r) :
    ∃ msg, mapME f l = Except.error msg := by
  cases h : mapME f l with
  | error m => exact ⟨m, rfl⟩
  | ok rs =>
    obtain ⟨r, hr⟩ := mapME_ok_forall h x hx
    exact absurd hr (he r)

theorem mapME_eq_map {β : Type} {f : Nat → Except String β} {gfun : Nat → β}
    {l : List Nat} (h : ∀ x ∈ l, f x = Except.ok (gfun x)) :
    mapME f l = Except.ok (l.map gfun) := by
  induction l with
  | nil => rfl
  | cons x xs ih =>
    have hx := h x (List.mem_cons_self x xs)
    have hxs := ih (fun y hy => h y (List.mem_cons_of_mem x hy))
    simp only [mapME, hx, hxs, List.map_cons]

theorem mapME_ok_of_forall {β : Type} {f : Nat → Except String β}
    {l : List Nat} (h : ∀ x ∈ l, ∃ r, f x = Except.ok r) :
    ∃ rs, mapME f l = Except.ok rs := by
  induction l with
  | nil => exact ⟨[], rfl⟩
  | cons x xs ih =>
    obtain ⟨r, hr⟩ := h x (List.mem_cons_self x xs)
    obtain ⟨rs, hrs⟩ := ih (fun y hy => h y (List.mem_cons_of_mem x hy))
    exact ⟨r :: rs, by simp only [mapME, hr, hrs]⟩

theorem map_getD_range {α : Type} (l : List α) (d : α) :
    (List.range l.length).map (fun i => l.getD i d) = l := by
  induction l with
  | nil => rfl
  | cons x xs ih =>
    rw [List.length_cons, List.range_succ_eq_map, List.map_cons,
      List.map_map]
    have : ((fun i => (x :: xs).getD i d) ∘ Nat.succ) =
        (fun i => xs.getD i d) := by
      funext i
      rfl
    rw [this, ih]
    rfl

/-! Helper lemmas on the modelled kernels: each kernel only ever selects
entries of its input matrix. -/

theorem pickRow_subset {ch : Nat → Nat} {q : Nat} {replace : Bool}
    {es : List (Nat × Nat × Nat)} {x : Nat × Nat × Nat}
    (hx : x ∈ pickRow ch q replace es) : x ∈ es := by
  unfold pickRow at hx
  split at hx
  · exact hx
  · obtain ⟨i, _, hi⟩ := List.mem_filterMap.mp hx
    exact List.get?_mem hi

theorem rowWiseSampling_entries_subset {ch : Nat → Nat → Nat} {m : COOMatrix}
    {rows : List Nat} {fanout : Int} {prob : FloatArray} {replace : Bool}
    {x : Nat × Nat × Nat}
    (hx : x ∈ (rowWiseSampling ch m rows fanout prob replace).entries) :
    x ∈ m.entries := by
  simp only [rowWiseSampling] at hx
  obtain ⟨s, hs, hxs⟩ := List.mem_flatten.mp hx
  obtain ⟨r, _, rfl⟩ := List.mem_map.mp hs
  exact List.mem_of_mem_filter (pickRow_subset hxs)

theorem mem_insertW {α : Type} {le : α → α → Bool} {x y : α} {l : List α}
    (h : y ∈ insertW le x l) : y = x ∨ y ∈ l := by
  induction l with
  | nil =>
    simp only [insertW, List.mem_singleton] at h
    exact Or.inl h
  | cons z zs ih =>
    simp only [insertW] at h
    split at h
    · rcases List.mem_cons.mp h with h1 | h2
      · exact Or.inr (List.mem_cons.mpr (Or.inl h1))
      · rcases ih h2 with h3 | h4
        · exact Or.inl h3
        · exact Or.inr (List.mem_cons.mpr (Or.inr h4))
    · rcases List.mem_cons.mp h with h1 | h2
      · exact Or.inl h1
      · exact Or.inr h2

theorem mem_sortW {α : Type} {le : α → α → Bool} {y : α} {l : List α}
    (h : y ∈ sortW le l) : y ∈ l := by
  induction l with
  | nil => simp [sortW] at h
  | cons z zs ih =>
    simp only [sortW] at h
    rcases mem_insertW h with h1 | h2
    · exact List.mem_cons.mpr (Or.inl h1)
    · exact List.mem_cons.mpr (Or.inr (ih h2))

theorem rowTopk_subset {weight : FloatArray} {k : Nat} {ascending : Bool}
    {es : List (Nat × Nat × Nat)} {x : Nat × Nat × Nat}
    (hx : x ∈ rowTopk weight k ascending es) : x ∈ es :=
  mem_sortW (List.mem_of_mem_take hx)

theorem rowWiseTopk_entries_subset {m : COOMatrix} {rows : List Nat} {k : Int}
    {weight : FloatArray} {ascending : Bool} {x : Nat × Nat × Nat}
    (hx : x ∈ (rowWiseTopk m rows k weight ascending).entries) :
    x ∈ m.entries := by
  simp only [rowWiseTopk] at hx
  obtain ⟨s, hs, hxs⟩ := List.mem_flatten.mp hx
  obtain ⟨r, _, rfl⟩ := List.mem_map.mp hs
  exact List.mem_of_mem_filter (rowTopk_subset hxs)

theorem rowWiseSamplingBiased_entries_subset {ch : Nat → Nat → Nat}
    {m : COOMatrix} {rows : List Nat} {fanout : Int}
    {tag_offset bias : NDArray} {replace : Bool} {x : Nat × Nat × Nat}
    (hx : x ∈ (rowWiseSamplingBiased ch m rows fanout tag_offset bias
      replace).entries) :
    x ∈ m.entries := by
  simp only [rowWiseSamplingBiased] at hx
  obtain ⟨s, hs, hxs⟩ := List.mem_flatten.mp hx
  obtain ⟨r, _, rfl⟩ := List.mem_map.mp hs
  exact List.mem_of_mem_filter (pickRow_subset hxs)

theorem COOTranspose_data (m : COOMatrix) :
    (COOTranspose m).data = m.data := by
  simp only [COOMatrix.data, COOTranspose, List.map_map]
  rfl

theorem mem_COOTranspose {m : COOMatrix} {x : Nat × Nat × Nat}
    (hx : x ∈ (COOTranspose m).entries) :
    (x.2.1, x.1, x.2.2) ∈ m.entries := by
  obtain ⟨t, ht, rfl⟩ := List.mem_map.mp hx
  simpa using ht

theorem data_mem {m : COOMatrix} {i : Nat} (hi : i ∈ m.data) :
    ∃ t ∈ m.entries, t.2.2 = i :=
  List.mem_map.mp hi

/-! Inversion lemmas on the dispatch step and the per-edge-type bodies. -/

theorem sampleDispatch_ok_data {ch : Nat → Nat → Nat} {hg : HeteroGraph}
    {frontier : List Nat} {fanout : Int} {dir : EdgeDir} {prob : FloatArray}
    {replace : Bool} {etype : Nat} {m : COOMatrix}
    (h : sampleDispatch ch hg frontier fanout dir prob replace etype =
      Except.ok m) :
    ∀ i ∈ m.data, ∃ t ∈ hg.rel etype, t.2.2 = i := by
  intro i hi
  unfold sampleDispatch at h
  cases hfmt : hg.selectFormat etype dir <;> simp only [hfmt] at h
  case kCOO =>
    cases dir with
    | kIn =>
      rw [if_pos rfl] at h
      injection h with h
      subst h
      rw [COOTranspose_data] at hi
      obtain ⟨t, ht, hti⟩ := data_mem hi
      exact ⟨(t.2.1, t.1, t.2.2),
        mem_COOTranspose (rowWiseSampling_entries_subset ht), hti⟩
    | kOut =>
      rw [if_neg (by decide)] at h
      injection h with h
      subst h
      obtain ⟨t, ht, hti⟩ := data_mem hi
      exact ⟨t, rowWiseSampling_entries_subset ht, hti⟩
  case kCSR =>
    cases dir with
    | kIn =>
      rw [if_neg (by decide)] at h
      exact Except.noConfusion h
    | kOut =>
      rw [if_pos rfl] at h
      injection h with h
      subst h
      obtain ⟨t, ht, hti⟩ := data_mem hi
      exact ⟨t, rowWiseSampling_entries_subset ht, hti⟩
  case kCSC =>
    cases dir with
    | kIn =>
      rw [if_pos rfl] at h
      injection h with h
      subst h
      rw [COOTranspose_data] at hi
      obtain ⟨t, ht, hti⟩ := data_mem hi
      exact ⟨(t.2.1, t.1, t.2.2),
        mem_COOTranspose (rowWiseSampling_entries_subset ht), hti⟩
    | kOut =>
      rw [if_neg (by decide)] at h
      exact Except.noConfusion h
  case kUnknown => exact Except.noConfusion h

theorem topkDispatch_ok_data {hg : HeteroGraph} {frontier : List Nat}
    {k : Int} {dir : EdgeDir} {weight : FloatArray} {ascending : Bool}
    {etype : Nat} {m : COOMatrix}
    (h : topkDispatch hg frontier k dir weight ascending etype =
      Except.ok m) :
    ∀ i ∈ m.data, ∃ t ∈ hg.rel etype, t.2.2 = i := by
  intro i hi
  unfold topkDispatch at h
  cases hfmt : hg.selectFormat etype dir <;> simp only [hfmt] at h
  case kCOO =>
    cases dir with
    | kIn =>
      rw [if_pos rfl] at h
      injection h with h
      subst h
      rw [COOTranspose_data] at hi
      obtain ⟨t, ht, hti⟩ := data_mem hi
      exact ⟨(t.2.1, t.1, t.2.2),
        mem_COOTranspose (rowWiseTopk_entries_subset ht), hti⟩
    | kOut =>
      rw [if_neg (by decide)] at h
      injection h with h
      subst h
      obtain ⟨t, ht, hti⟩ := data_mem hi
      exact ⟨t, rowWiseTopk_entries_subset ht, hti⟩
  case kCSR =>
    cases dir with
    | kIn =>
      rw [if_neg (by decide)] at h
      exact Except.noConfusion h
    | kOut =>
      rw [if_pos rfl] at h
      injection h with h
      subst h
      obtain ⟨t, ht, hti⟩ := data_mem hi
      exact ⟨t, rowWiseTopk_entries_subset ht, hti⟩
  case kCSC =>
    cases dir with
    | kIn =>
      rw [if_pos rfl] at h
      injection h with h
      subst h
      rw [COOTranspose_data] at hi
      obtain ⟨t, ht, hti⟩ := data_mem hi
      exact ⟨(t.2.1, t.1, t.2.2),
        mem_COOTranspose (rowWiseTopk_entries_subset ht), hti⟩
    | kOut =>
      rw [if_neg (by decide)] at h
      exact Except.noConfusion h
  case kUnknown => exact Except.noConfusion h

theorem OutEdges_subset {hg : HeteroGraph} {etype : Nat} {nodes : List Nat}
    {t : Nat × Nat × Nat} (h : t ∈ hg.OutEdges etype nodes) :
    t ∈ hg.rel etype :=
  List.mem_of_mem_filter h

theorem InEdges_subset {hg : HeteroGraph} {etype : Nat} {nodes : List Nat}
    {t : Nat × Nat × Nat} (h : t ∈ hg.InEdges etype nodes) :
    t ∈ hg.rel etype :=
  List.mem_of_mem_filter h

theorem incidentList_subset {hg : HeteroGraph} {etype : Nat}
    {frontier : List Nat} {dir : EdgeDir} {t : Nat × Nat × Nat}
    (h : t ∈ incidentList hg etype frontier dir) : t ∈ hg.rel etype := by
  unfold incidentList at h
  split at h
  · exact OutEdges_subset h
  · exact InEdges_subset h

theorem sampleOneRel_ids {ch : Nat → Nat → Nat} {hg : HeteroGraph}
    {nodes : List (List Nat)} {fanout : Int} {dir : EdgeDir}
    {prob : FloatArray} {replace : Bool} {etype : Nat} {u : UnitGraph}
    {ids : List Nat}
    (h : sampleOneRel ch hg nodes fanout dir prob replace etype =
      Except.ok (u, some ids)) :
    ∀ i ∈ ids, ∃ t ∈ hg.rel etype, t.2.2 = i := by
  intro i hi
  unfold sampleOneRel at h
  split at h
  · simp at h
  · split at h
    · simp only [Except.ok.injEq, Prod.mk.injEq, Option.some.injEq] at h
      rw [← h.2] at hi
      obtain ⟨t, ht, hti⟩ := List.mem_map.mp hi
      exact ⟨t, incidentList_subset ht, hti⟩
    · cases hd : sampleDispatch ch hg (relFrontier hg nodes dir etype) fanout
          dir prob replace etype with
      | error e => rw [hd] at h; exact Except.noConfusion h
      | ok sc =>
        rw [hd] at h
        simp only [Except.map, Except.ok.injEq, mkSampledSlot,
          Prod.mk.injEq, Option.some.injEq] at h
        rw [← h.2] at hi
        exact sampleDispatch_ok_data hd i hi

theorem topkOneRel_ids {hg : HeteroGraph} {nodes : List (List Nat)} {k : Int}
    {dir : EdgeDir} {weight : FloatArray} {ascending : Bool} {etype : Nat}
    {u : UnitGraph} {ids : List Nat}
    (h : topkOneRel hg nodes k dir weight ascending etype =
      Except.ok (u, some ids)) :
    ∀ i ∈ ids, ∃ t ∈ hg.rel etype, t.2.2 = i := by
  intro i hi
  unfold topkOneRel at h
  split at h
  · simp at h
  · split at h
    · simp only [Except.ok.injEq, Prod.mk.injEq, Option.some.injEq] at h
      rw [← h.2] at hi
      obtain ⟨t, ht, hti⟩ := List.mem_map.mp hi
      exact ⟨t, incidentList_subset ht, hti⟩
    · cases hd : topkDispatch hg (relFrontier hg nodes dir etype) k dir
          weight ascending etype with
      | error e => rw [hd] at h; exact Except.noConfusion h
      | ok sc =>
        rw [hd] at h
        simp only [Except.map, Except.ok.injEq, mkSampledSlot,
          Prod.mk.injEq, Option.some.injEq] at h
        rw [← h.2] at hi
        exact topkDispatch_ok_data hd i hi

/-! Inversion lemmas on the assembled subgraphs. -/

theorem SampleGraphNeighbors_ok_inv {ch : Nat → Nat → Nat → Nat}
    {hg : HeteroGraph} {nodes : List (List Nat)} {fanouts : List Int}
    {dir : EdgeDir} {prob : List FloatArray} {replace : Bool}
    {sg : HeteroSubgraph}
    (h : SampleGraphNeighbors ch hg nodes fanouts dir prob replace =
      Except.ok sg) :
    sg.graph.metaGraph = hg.metaGraph ∧
    sg.graph.numVerticesPerType = hg.numVerticesPerType ∧
    sg.induced_vertices = List.replicate hg.numVertexTypes [] ∧
    sg.induced_edges.length = hg.numEdgeTypes ∧
    ∀ etype, etype < hg.numEdgeTypes →
      ∃ u ids,
        sampleOneRel (ch etype) hg nodes (fanouts.getD etype 0) dir
          (prob.getD etype []) replace etype = Except.ok (u, ids) ∧
        sg.induced_edges.get? etype = some ids ∧
        sg.graph.relations.get? etype =
          some (u.edges.enum.map (fun p => (p.2.1, p.2.2, p.1))) := by
  unfold SampleGraphNeighbors at h
  cases hm : mapME (fun etype => sampleOneRel (ch etype) hg nodes
      (fanouts.getD etype 0) dir (prob.getD etype []) replace etype)
      (List.range hg.numEdgeTypes) with
  | error e => rw [hm] at h; exact Except.noConfusion h
  | ok results =>
    rw [hm] at h
    injection h with h
    subst h
    have hlen : results.length = hg.numEdgeTypes := by
      rw [mapME_ok_length hm, List.length_range]
    refine ⟨rfl, rfl, rfl, by simp [hlen], ?_⟩
    intro etype he
    obtain ⟨r, hr, hres⟩ := mapME_ok_get? hm etype etype (List.get?_range he)
    refine ⟨r.1, r.2, hr, ?_, ?_⟩
    · show (results.map (fun r => r.2)).get? etype = some r.2
      rw [List.get?_map, hres]
      rfl
    · show (CreateHeteroGraph hg.metaGraph (results.map (fun r => r.1))
        hg.numVerticesPerType).relations.get? etype = _
      unfold CreateHeteroGraph
      simp only [List.map_map, List.get?_map, hres]
      rfl

theorem SampleNeighborsTopk_ok_inv {hg : HeteroGraph}
    {nodes : List (List Nat)} {k : List Int} {dir : EdgeDir}
    {weight : List FloatArray} {ascending : Bool} {sg : HeteroSubgraph}
    (h : SampleNeighborsTopk hg nodes k dir weight ascending =
      Except.ok sg) :
    sg.graph.metaGraph = hg.metaGraph ∧
    sg.graph.numVerticesPerType = hg.numVerticesPerType ∧
    sg.induced_vertices = List.replicate hg.numVertexTypes [] ∧
    sg.induced_edges.length = hg.numEdgeTypes ∧
    ∀ etype, etype < hg.numEdgeTypes →
      ∃ u ids,
        topkOneRel hg nodes (k.getD etype 0) dir (weight.getD etype [])
          ascending etype = Except.ok (u, ids) ∧
        sg.induced_edges.get? etype = some ids ∧
        sg.graph.relations.get? etype =
          some (u.edges.enum.map (fun p => (p.2.1, p.2.2, p.1))) := by
  unfold SampleNeighborsTopk at h
  split at h
  · exact Except.noConfusion h
  split at h
  · exact Except.noConfusion h
  split at h
  · exact Except.noConfusion h
  cases hm : mapME (fun etype => topkOneRel hg nodes (k.getD etype 0) dir
      (weight.getD etype []) ascending etype)
      (List.range hg.numEdgeTypes) with
  | error e => rw [hm] at h; exact Except.noConfusion h
  | ok results =>
    rw [hm] at h
    injection h with h
    subst h
    have hlen : results.length = hg.numEdgeTypes := by
      rw [mapME_ok_length hm, List.length_range]
    refine ⟨rfl, rfl, rfl, by simp [hlen], ?_⟩
    intro etype he
    obtain ⟨r, hr, hres⟩ := mapME_ok_get? hm etype etype (List.get?_range he)
    refine ⟨r.1, r.2, hr, ?_, ?_⟩
    · show (results.map (fun r => r.2)).get? etype = some r.2
      rw [List.get?_map, hres]
      rfl
    · show (CreateHeteroGraph hg.metaGraph (results.map (fun r => r.1))
        hg.numVerticesPerType).relations.get? etype = _
      unfold CreateHeteroGraph
      simp only [List.map_map, List.get?_map, hres]
      rfl

theorem SampleNeighborsBiased_ok_inv {ch : Nat → Nat → Nat}
    {hg : HeteroGraph} {nodes : List Nat} {fanout : Int}
    {bias tag_offset : NDArray} {dir : EdgeDir} {replace : Bool}
    {sg : HeteroSubgraph}
    (h : SampleNeighborsBiased ch hg nodes fanout bias tag_offset dir
      replace = Except.ok sg) :
    hg.numEdgeTypes = 1 ∧
    sg.graph.metaGraph = hg.metaGraph ∧
    sg.graph.numVerticesPerType = hg.numVerticesPerType ∧
    sg.induced_vertices = List.replicate hg.numVertexTypes [] ∧
    ∃ u ids,
      biasedOneRel ch hg nodes fanout bias tag_offset dir replace =
        Except.ok (u, ids) ∧
      sg.induced_edges = [ids] ∧
      sg.graph.relations =
        [u.edges.enum.map (fun p => (p.2.1, p.2.2, p.1))] := by
  unfold SampleNeighborsBiased at h
  split at h
  · exact Except.noConfusion h
  split at h
  · exact Except.noConfusion h
  split at h
  · exact Except.noConfusion h
  split at h
  · exact Except.noConfusion h
  rename_i hnet _ _ _
  cases hb : biasedOneRel ch hg nodes fanout bias tag_offset dir replace with
  | error e => rw [hb] at h; exact Except.noConfusion h
  | ok r =>
    rw [hb] at h
    cases r with
    | mk u ids =>
      injection h with h
      subst h
      exact ⟨Decidable.not_not.mp hnet, rfl, rfl, rfl, u, ids, rfl, rfl, rfl⟩

/-! Lemmas on the exclusion preprocessor. -/

theorem excludeGraphEdges_ok {hg : HeteroGraph} {excl : List (List Nat)}
    {hg2 : HeteroGraph} (h : excludeGraphEdges hg excl = Except.ok hg2) :
    hg2.metaGraph = hg.metaGraph ∧
    hg2.numVerticesPerType = hg.numVerticesPerType ∧
    hg2.relNumVtypes = hg.relNumVtypes ∧
    hg2.fmtForOut = hg.fmtForOut ∧
    hg2.fmtForIn = hg.fmtForIn ∧
    hg2.createdFormats = hg.createdFormats ∧
    hg2.relations.length = hg.numEdgeTypes ∧
    ∀ etype, etype < hg.numEdgeTypes →
      hg2.rel etype = (hg.rel etype).filter
        (fun t => decide (t.2.2 ∉ excl.getD etype [])) := by
  unfold excludeGraphEdges at h
  cases hm : mapME (fun etype =>
      match excl.get? etype with
      | none => Except.error "out-of-bounds access on exclude_edges"
      | some ex =>
        Except.ok ((hg.rel etype).filter (fun t => decide (t.2.2 ∉ ex))))
      (List.range hg.numEdgeTypes) with
  | error e => rw [hm] at h; exact Except.noConfusion h
  | ok rels =>
    rw [hm] at h
    injection h with h
    subst h
    have hlen : rels.length = hg.numEdgeTypes := by
      rw [mapME_ok_length hm, List.length_range]
    refine ⟨rfl, rfl, rfl, rfl, rfl, rfl, hlen, ?_⟩
    intro etype he
    obtain ⟨r, hr, hres⟩ := mapME_ok_get? hm etype etype (List.get?_range he)
    cases hx : excl.get? etype with
    | none => rw [hx] at hr; exact Except.noConfusion hr
    | some ex =>
      rw [hx] at hr
      injection hr with hr
      show rels.getD etype [] = _
      rw [getD_get?, hres, getD_get?, hx]
      simp [← hr]

theorem excludeGraphEdges_ok_of_length {hg : HeteroGraph}
    {excl : List (List Nat)} (h : hg.numEdgeTypes ≤ excl.length) :
    ∃ hg2, excludeGraphEdges hg excl = Except.ok hg2 := by
  unfold excludeGraphEdges
  have hfa : ∀ x ∈ List.range hg.numEdgeTypes, ∃ r,
      (match excl.get? x with
      | none =>
        (Except.error "out-of-bounds access on exclude_edges" :
          Except String (List (Nat × Nat × Nat)))
      | some ex =>
        Except.ok ((hg.rel x).filter (fun t => decide (t.2.2 ∉ ex)))) =
        Except.ok r := by
    intro x hx
    cases hex : excl.get? x with
    | none =>
      have := List.get?_eq_none.mp hex
      have hx2 := List.mem_range.mp hx
      omega
    | some ex => exact ⟨_, rfl⟩
  obtain ⟨rs, hrs⟩ := mapME_ok_of_forall hfa
  rw [hrs]
  exact ⟨_, rfl⟩

theorem excludeGraphEdges_error_of_short {hg : HeteroGraph}
    {excl : List (List Nat)} (h : excl.length < hg.numEdgeTypes) :
    ∃ msg, excludeGraphEdges hg excl = Except.error msg := by
  have hmem : excl.length ∈ List.range hg.numEdgeTypes :=
    List.mem_range.mpr h
  have hnone : excl.get? excl.length = none :=
    List.get?_eq_none.mpr (Nat.le_refl _)
  obtain ⟨msg, hmsg⟩ := mapME_error_of_elem (f := fun etype =>
      match excl.get? etype with
      | none =>
        (Except.error "out-of-bounds access on exclude_edges" :
          Except String (List (Nat × Nat × Nat)))
      | some ex =>
        Except.ok ((hg.rel etype).filter (fun t => decide (t.2.2 ∉ ex))))
    hmem (by
      intro r hc
      have hc2 : (match excl.get? excl.length with
          | none =>
            (Except.error "out-of-bounds access on exclude_edges" :
              Except String (List (Nat × Nat × Nat)))
          | some ex =>
            Except.ok ((hg.rel excl.length).filter
              (fun t => decide (t.2.2 ∉ ex)))) = Except.ok r := hc
      rw [hnone] at hc2
      exact Except.noConfusion hc2)
  exact ⟨msg, by unfold excludeGraphEdges; rw [hmsg]⟩

theorem excludeGraphEdges_all_empty {hg : HeteroGraph}
    {excl : List (List Nat)} (hwf : hg.relations.length = hg.numEdgeTypes)
    (hall : ∀ a ∈ excl, a = []) (hlen : excl.length = hg.numEdgeTypes) :
    excludeGraphEdges hg excl = Except.ok hg := by
  unfold excludeGraphEdges
  have hmap : mapME (fun etype =>
      match excl.get? etype with
      | none =>
        (Except.error "out-of-bounds access on exclude_edges" :
          Except String (List (Nat × Nat × Nat)))
      | some ex =>
        Except.ok ((hg.rel etype).filter (fun t => decide (t.2.2 ∉ ex))))
      (List.range hg.numEdgeTypes) =
      Except.ok ((List.range hg.numEdgeTypes).map (fun e => hg.rel e)) := by
    apply mapME_eq_map
    intro x hx
    have hxlt : x < excl.length := by
      rw [hlen]
      exact List.mem_range.mp hx
    cases hex : excl.get? x with
    | none =>
      have := List.get?_eq_none.mp hex
      omega
    | some ex =>
      have hx2 : ex = [] := hall ex (List.get?_mem hex)
      subst hx2
      simp only [hex]
      simp [List.filter_eq_self]
  rw [hmap]
  have hrel : (List.range hg.numEdgeTypes).map (fun e => hg.rel e) =
      hg.relations := by
    unfold HeteroGraph.rel
    rw [← hwf]
    exact map_getD_range hg.relations []
  rw [hrel]

/-! Branch equations for the per-edge-type bodies. -/

theorem sampleOneRel_empty {ch : Nat → Nat → Nat} {hg : HeteroGraph}
    {nodes : List (List Nat)} {fanout : Int} {dir : EdgeDir}
    {prob : FloatArray} {replace : Bool} {etype : Nat}
    (hz : relFrontier hg nodes dir etype = [] ∨ fanout = 0) :
    sampleOneRel ch hg nodes fanout dir prob replace etype =
      Except.ok (UnitGraph.Empty (hg.relNumVtypes.getD etype 0)
        (hg.numVertices (hg.findEdge etype).1)
        (hg.numVertices (hg.findEdge etype).2), none) := by
  unfold sampleOneRel
  rw [if_pos]
  rcases hz with hz | hz
  · exact Or.inl (by rw [hz]; rfl)
  · exact Or.inr hz

theorem topkOneRel_empty {hg : HeteroGraph} {nodes : List (List Nat)}
    {k : Int} {dir : EdgeDir} {weight : FloatArray} {ascending : Bool}
    {etype : Nat}
    (hz : relFrontier hg nodes dir etype = [] ∨ k = 0) :
    topkOneRel hg nodes k dir weight ascending etype =
      Except.ok (UnitGraph.Empty (hg.relNumVtypes.getD etype 0)
        (hg.numVertices (hg.findEdge etype).1)
        (hg.numVertices (hg.findEdge etype).2), none) := by
  unfold topkOneRel
  rw [if_pos]
  rcases hz with hz | hz
  · exact Or.inl (by rw [hz]; rfl)
  · exact Or.inr hz

theorem biasedOneRel_empty {ch : Nat → Nat → Nat} {hg : HeteroGraph}
    {nodes : List Nat} {fanout : Int} {bias tag_offset : NDArray}
    {dir : EdgeDir} {replace : Bool}
    (hz : nodes = [] ∨ fanout = 0) :
    biasedOneRel ch hg nodes fanout bias tag_offset dir replace =
      Except.ok (UnitGraph.Empty (hg.relNumVtypes.getD 0 0)
        (hg.numVertices (hg.findEdge 0).1)
        (hg.numVertices (hg.findEdge 0).2), none) := by
  unfold biasedOneRel
  rw [if_pos]
  rcases hz with hz | hz
  · exact Or.inl (by rw [hz]; rfl)
  · exact Or.inr hz

theorem sampleOneRel_keep_all {ch : Nat → Nat → Nat} {hg : HeteroGraph}
    {nodes : List (List Nat)} {fanout : Int} {dir : EdgeDir}
    {prob : FloatArray} {replace : Bool} {etype : Nat}
    (hfr : relFrontier hg nodes dir etype ≠ []) (hfan : fanout = -1) :
    sampleOneRel ch hg nodes fanout dir prob replace etype =
      Except.ok (UnitGraph.CreateFromCOO (hg.relNumVtypes.getD etype 0)
        (hg.numVertices (hg.findEdge etype).1)
        (hg.numVertices (hg.findEdge etype).2)
        ((incidentEdges hg nodes dir etype).map (fun t => t.1))
        ((incidentEdges hg nodes dir etype).map (fun t => t.2.1)),
        some ((incidentEdges hg nodes dir etype).map (fun t => t.2.2))) := by
  unfold sampleOneRel
  rw [if_neg, if_pos hfan]
  intro hc
  rcases hc with hc | hc
  · exact hfr (List.length_eq_zero.mp hc)
  · rw [hfan] at hc
    exact absurd hc (by decide)

theorem topkOneRel_keep_all {hg : HeteroGraph} {nodes : List (List Nat)}
    {k : Int} {dir : EdgeDir} {weight : FloatArray} {ascending : Bool}
    {etype : Nat}
    (hfr : relFrontier hg nodes dir etype ≠ []) (hk : k = -1) :
    topkOneRel hg nodes k dir weight ascending etype =
      Except.ok (UnitGraph.CreateFromCOO (hg.relNumVtypes.getD etype 0)
        (hg.numVertices (hg.findEdge etype).1)
        (hg.numVertices (hg.findEdge etype).2)
        ((incidentEdges hg nodes dir etype).map (fun t => t.1))
        ((incidentEdges hg nodes dir etype).map (fun t => t.2.1)),
        some ((incidentEdges hg nodes dir etype).map (fun t => t.2.2))) := by
  unfold topkOneRel
  rw [if_neg, if_pos hk]
  intro hc
  rcases hc with hc | hc
  · exact hfr (List.length_eq_zero.mp hc)
  · rw [hk] at hc
    exact absurd hc (by decide)

theorem biasedOneRel_keep_all {ch : Nat → Nat → Nat} {hg : HeteroGraph}
    {nodes : List Nat} {fanout : Int} {bias tag_offset : NDArray}
    {dir : EdgeDir} {replace : Bool}
    (hfr : nodes ≠ []) (hfan : fanout = -1) :
    biasedOneRel ch hg nodes fanout bias tag_offset dir replace =
      Except.ok (UnitGraph.CreateFromCOO (hg.relNumVtypes.getD 0 0)
        (hg.numVertices (hg.findEdge 0).1)
        (hg.numVertices (hg.findEdge 0).2)
        ((incidentList hg 0 [biasedFrontierVtype hg dir] dir).map
          (fun t => t.1))
        ((incidentList hg 0 [biasedFrontierVtype hg dir] dir).map
          (fun t => t.2.1)),
        some ((incidentList hg 0 [biasedFrontierVtype hg dir] dir).map
          (fun t => t.2.2))) := by
  unfold biasedOneRel
  rw [if_neg, if_pos hfan]
  intro hc
  rcases hc with hc | hc
  · exact hfr (List.length_eq_zero.mp hc)
  · rw [hfan] at hc
    exact absurd hc (by decide)

/-! Error propagation for the fatal dispatch checks. -/

theorem sampleDispatch_error_of_bad {ch : Nat → Nat → Nat} {hg : HeteroGraph}
    {frontier : List Nat} {fanout : Int} {dir : EdgeDir} {prob : FloatArray}
    {replace : Bool} {etype : Nat}
    (hbad : (hg.selectFormat etype dir = SparseFormat.kCSR ∧
        dir = EdgeDir.kIn) ∨
      (hg.selectFormat etype dir = SparseFormat.kCSC ∧
        dir = EdgeDir.kOut) ∨
      hg.selectFormat etype dir = SparseFormat.kUnknown) :
    ∀ m, sampleDispatch ch hg frontier fanout dir prob replace etype ≠
      Except.ok m := by
  intro m hc
  unfold sampleDispatch at hc
  rcases hbad with ⟨hfmt, hdir⟩ | ⟨hfmt, hdir⟩ | hfmt
  · subst hdir
    simp only [hfmt] at hc
    rw [if_neg (by decide)] at hc
    exact Except.noConfusion hc
  · subst hdir
    simp only [hfmt] at hc
    rw [if_neg (by decide)] at hc
    exact Except.noConfusion hc
  · simp only [hfmt] at hc
    exact Except.noConfusion hc

theorem topkDispatch_error_of_bad {hg : HeteroGraph} {frontier : List Nat}
    {k : Int} {dir : EdgeDir} {weight : FloatArray} {ascending : Bool}
    {etype : Nat}
    (hbad : (hg.selectFormat etype dir = SparseFormat.kCSR ∧
        dir = EdgeDir.kIn) ∨
      (hg.selectFormat etype dir = SparseFormat.kCSC ∧
        dir = EdgeDir.kOut) ∨
      hg.selectFormat etype dir = SparseFormat.kUnknown) :
    ∀ m, topkDispatch hg frontier k dir weight ascending etype ≠
      Except.ok m := by
  intro m hc
  unfold topkDispatch at hc
  rcases hbad with ⟨hfmt, hdir⟩ | ⟨hfmt, hdir⟩ | hfmt
  · subst hdir
    simp only [hfmt] at hc
    rw [if_neg (by decide)] at hc
    exact Except.noConfusion hc
  · subst hdir
    simp only [hfmt] at hc
    rw [if_neg (by decide)] at hc
    exact Except.noConfusion hc
  · simp only [hfmt] at hc
    exact Except.noConfusion hc

theorem sampleOneRel_error_of_bad {ch : Nat → Nat → Nat} {hg : HeteroGraph}
    {nodes : List (List Nat)} {fanout : Int} {dir : EdgeDir}
    {prob : FloatArray} {replace : Bool} {etype : Nat}
    (hfr : relFrontier hg nodes dir etype ≠ []) (hfan : 0 < fanout)
    (hbad : (hg.selectFormat etype dir = SparseFormat.kCSR ∧
        dir = EdgeDir.kIn) ∨
      (hg.selectFormat etype dir = SparseFormat.kCSC ∧
        dir = EdgeDir.kOut) ∨
      hg.selectFormat etype dir = SparseFormat.kUnknown) :
    ∀ r, sampleOneRel ch hg nodes fanout dir prob replace etype ≠
      Except.ok r := by
  intro r hc
  unfold sampleOneRel at hc
  rw [if_neg, if_neg] at hc
  · cases hd : sampleDispatch ch hg (relFrontier hg nodes dir etype) fanout
        dir prob replace etype with
    | error e => rw [hd] at hc; exact Except.noConfusion hc
    | ok sc => exact sampleDispatch_error_of_bad hbad sc hd
  · omega
  · intro h2
    rcases h2 with h2 | h2
    · exact hfr (List.length_eq_zero.mp h2)
    · omega

theorem topkOneRel_error_of_bad {hg : HeteroGraph} {nodes : List (List Nat)}
    {k : Int} {dir : EdgeDir} {weight : FloatArray} {ascending : Bool}
    {etype : Nat}
    (hfr : relFrontier hg nodes dir etype ≠ []) (hk : 0 < k)
    (hbad : (hg.selectFormat etype dir = SparseFormat.kCSR ∧
        dir = EdgeDir.kIn) ∨
      (hg.selectFormat etype dir = SparseFormat.kCSC ∧
        dir = EdgeDir.kOut) ∨
      hg.selectFormat etype dir = SparseFormat.kUnknown) :
    ∀ r, topkOneRel hg nodes k dir weight ascending etype ≠
      Except.ok r := by
  intro r hc
  unfold topkOneRel at hc
  rw [if_neg, if_neg] at hc
  · cases hd : topkDispatch hg (relFrontier hg nodes dir etype) k dir weight
        ascending etype with
    | error e => rw [hd] at hc; exact Except.noConfusion hc
    | ok sc => exact topkDispatch_error_of_bad hbad sc hd
  · omega
  · intro h2
    rcases h2 with h2 | h2
    · exact hfr (List.length_eq_zero.mp h2)
    · omega

theorem SampleGraphNeighbors_error_of_rel {ch : Nat → Nat → Nat → Nat}
    {hg : HeteroGraph} {nodes : List (List Nat)} {fanouts : List Int}
    {dir : EdgeDir} {prob : List FloatArray} {replace : Bool} {etype : Nat}
    (he : etype < hg.numEdgeTypes)
    (herr : ∀ r, sampleOneRel (ch etype) hg nodes (fanouts.getD etype 0) dir
      (prob.getD etype []) replace etype ≠ Except.ok r) :
    ∃ msg, SampleGraphNeighbors ch hg nodes fanouts dir prob replace =
      Except.error msg := by
  obtain ⟨msg, hmsg⟩ := mapME_error_of_elem (f := fun etype =>
      sampleOneRel (ch etype) hg nodes (fanouts.getD etype 0) dir
        (prob.getD etype []) replace etype)
    (List.mem_range.mpr he)
    (by
      intro r hc
      exact herr r hc)
  exact ⟨msg, by unfold SampleGraphNeighbors; rw [hmsg]⟩

/-! The specification-side description of the keep-all listing coincides with
the modelled edge-listing query. -/

theorem specIncidentEdges_eq (g : HeteroGraph) (etype : Nat)
    (frontier : List Nat) (dir : EdgeDir) :
    specIncidentEdges g etype frontier dir =
      incidentList g etype frontier dir := by
  cases dir <;> rfl

theorem freshIds_pairs (edges : List (Nat × Nat)) :
    (edges.enum.map (fun p => (p.2.1, p.2.2, p.1))).map
      (fun t => (t.1, t.2.1)) = edges := by
  rw [List.map_map]
  have hcomp : ((fun t : Nat × Nat × Nat => (t.1, t.2.1)) ∘
      (fun p : Nat × Nat × Nat => (p.2.1, p.2.2, p.1))) =
      (Prod.snd : Nat × Nat × Nat → Nat × Nat) := by
    funext p
    rfl
  rw [hcomp, List.enum_map_snd]

theorem zip_of_maps (l : List (Nat × Nat × Nat)) :
    ((l.map (fun t => t.1)).zip (l.map (fun t => t.2.1))) =
      l.map (fun t => (t.1, t.2.1)) :=
  List.zip_map' (fun t => t.1) (fun t => t.2.1) l

/-! Claim theorems. -/

/-- C5: for every call to `SampleNeighbors` or `SampleNeighborsTopk`, if the
frontier-array count differs from the node-type count, or the fanout/k-array
count differs from the edge-type count, or the probability/weight-array count
differs from the edge-type count, the call fails fatally.  The checks are the
first statements of both functions, so no per-edge-type sampling or exclusion
work precedes them, and the input graph — a read-only argument of the pure
embedding — is unchanged. -/
theorem C5_shape_checks_fatal (ch : Nat → Nat → Nat → Nat)
    (hg : HeteroGraph) (nodes : List (List Nat)) (fanouts : List Int)
    (dir : EdgeDir) (prob : List FloatArray)
    (exclude_edges : List (List Nat)) (replace : Bool) (k : List Int)
    (weight : List FloatArray) (ascending : Bool) :
    (nodes.length ≠ hg.numVertexTypes ∨ fanouts.length ≠ hg.numEdgeTypes ∨
        prob.length ≠ hg.numEdgeTypes →
      ∃ msg, SampleNeighbors ch hg nodes fanouts dir prob exclude_edges
        replace = Except.error msg) ∧
    (nodes.length ≠ hg.numVertexTypes ∨ k.length ≠ hg.numEdgeTypes ∨
        weight.length ≠ hg.numEdgeTypes →
      ∃ msg, SampleNeighborsTopk hg nodes k dir weight ascending =
        Except.error msg) := by
  constructor
  · intro h
    unfold SampleNeighbors
    split
    · exact ⟨_, rfl⟩
    split
    · exact ⟨_, rfl⟩
    split
    · exact ⟨_, rfl⟩
    rename_i h1 h2 h3
    rcases h with h | h | h
    · exact absurd h h1
    · exact absurd h h2
    · exact absurd h h3
  · intro h
    unfold SampleNeighborsTopk
    split
    · exact ⟨_, rfl⟩
    split
    · exact ⟨_, rfl⟩
    split
    · exact ⟨_, rfl⟩
    rename_i h1 h2 h3
    rcases h with h | h | h
    · exact absurd h h1
    · exact absurd h h2
    · exact absurd h h3

theorem C5_witness :
    (∃ msg, SampleNeighbors oracle0 gA [[0]] [1, 1] EdgeDir.kOut [[], []]
      [] false = Except.error msg) ∧
    (∃ msg, SampleNeighborsTopk gA [[0]] [1] EdgeDir.kOut [[], []] false =
      Except.error msg) :=
  ⟨(C5_shape_checks_fatal oracle0 gA [[0]] [1, 1] EdgeDir.kOut [[], []] []
      false [1] [[], []] false).1 (Or.inl (by decide)),
   (C5_shape_checks_fatal oracle0 gA [[0]] [1, 1] EdgeDir.kOut [[], []] []
      false [1] [[], []] false).2 (Or.inl (by decide))⟩

/-- C6: for every call that reaches the format-dispatch step of
`SampleGraphNeighbors` or `SampleNeighborsTopk` with a positive fanout/k
(non-empty relevant frontier, quantity neither 0 nor -1), a selected format
of CSR with inbound direction, or CSC with outbound direction, or an
unrecognized format, makes the whole call fail with a fatal error rather than
silently correcting the direction. -/
theorem C6_dispatch_direction_format_fatal (ch : Nat → Nat → Nat → Nat)
    (hg : HeteroGraph) (nodes : List (List Nat)) (fanouts : List Int)
    (dir : EdgeDir) (prob : List FloatArray) (replace : Bool) (k : List Int)
    (weight : List FloatArray) (ascending : Bool) (etype : Nat)
    (he : etype < hg.numEdgeTypes)
    (hfr : relFrontier hg nodes dir etype ≠ [])
    (hbad : (hg.selectFormat etype dir = SparseFormat.kCSR ∧
        dir = EdgeDir.kIn) ∨
      (hg.selectFormat etype dir = SparseFormat.kCSC ∧
        dir = EdgeDir.kOut) ∨
      hg.selectFormat etype dir = SparseFormat.kUnknown) :
    (0 < fanouts.getD etype 0 →
      ∃ msg, SampleGraphNeighbors ch hg nodes fanouts dir prob replace =
        Except.error msg) ∧
    (0 < k.getD etype 0 →
      ∃ msg, SampleNeighborsTopk hg nodes k dir weight ascending =
        Except.error msg) := by
  constructor
  · intro hfan
    exact SampleGraphNeighbors_error_of_rel he
      (sampleOneRel_error_of_bad hfr hfan hbad)
  · intro hk
    unfold SampleNeighborsTopk
    split
    · exact ⟨_, rfl⟩
    split
    · exact ⟨_, rfl⟩
    split
    · exact ⟨_, rfl⟩
    obtain ⟨msg, hmsg⟩ := mapME_error_of_elem (f := fun etype =>
        topkOneRel hg nodes (k.getD etype 0) dir (weight.getD etype [])
          ascending etype)
      (List.mem_range.mpr he)
      (by
        intro r hc
        exact topkOneRel_error_of_bad hfr hk hbad r hc)
    rw [hmsg]
    exact ⟨msg, rfl⟩

theorem C6_witness :
    (∃ msg, SampleGraphNeighbors oracle0 gB [[0]] [1] EdgeDir.kIn [[]]
      false = Except.error msg) ∧
    (∃ msg, SampleNeighborsTopk gB [[0]] [1] EdgeDir.kIn [[]] false =
      Except.error msg) :=
  ⟨(C6_dispatch_direction_format_fatal oracle0 gB [[0]] [1] EdgeDir.kIn [[]]
      false [1] [[]] false 0 (by decide) (by decide) (by decide)).1
      (by decide),
   (C6_dispatch_direction_format_fatal oracle0 gB [[0]] [1] EdgeDir.kIn [[]]
      false [1] [[]] false 0 (by decide) (by decide) (by decide)).2
      (by decide)⟩

/-- C9: `SampleNeighborsBiased` fails fatally — before any sampling work,
the checks being the first statements of the function — whenever the graph
has more than one edge type (more generally, a number of edge types other
than one), or `tag_offset` is not two-dimensional, or its first dimension
differs from the vertex count of the frontier-side node type, or its second
dimension does not equal the bias vector's length plus one. -/
theorem C9_biased_shape_checks_fatal (ch : Nat → Nat → Nat)
    (hg : HeteroGraph) (nodes : List Nat) (fanout : Int)
    (bias tag_offset : NDArray) (dir : EdgeDir) (replace : Bool)
    (hbad : hg.numEdgeTypes ≠ 1 ∨ tag_offset.shape.length ≠ 2 ∨
      tag_offset.shape.getD 0 0 ≠
        hg.numVertices (biasedFrontierVtype hg dir) ∨
      tag_offset.shape.getD 1 0 ≠ bias.shape.getD 0 0 + 1) :
    ∃ msg, SampleNeighborsBiased ch hg nodes fanout bias tag_offset dir
      replace = Except.error msg := by
  unfold SampleNeighborsBiased
  split
  · exact ⟨_, rfl⟩
  split
  · exact ⟨_, rfl⟩
  split
  · exact ⟨_, rfl⟩
  split
  · exact ⟨_, rfl⟩
  rename_i h1 h2 h3 h4
  rcases hbad with h | h | h | h
  · exact absurd h h1
  · exact absurd h h2
  · exact absurd h h3
  · exact absurd h h4

theorem C9_witness :
    ∃ msg, SampleNeighborsBiased oracle2 gA [0] 1 ⟨[1], [5]⟩
      ⟨[2, 2], [0, 1, 0, 1]⟩ EdgeDir.kOut false = Except.error msg :=
  C9_biased_shape_checks_fatal oracle2 gA [0] 1 ⟨[1], [5]⟩
    ⟨[2, 2], [0, 1, 0, 1]⟩ EdgeDir.kOut false (Or.inl (by decide))

/-- C10: the length of a non-empty exclusion vector is never validated
against the edge-type count; the per-type loop indexes it at every edge
type, so the accesses are all in bounds exactly when the vector has at least
one entry per edge type, and for a shorter non-empty vector the access is
out of bounds (C++ undefined behaviour, modelled as a failure), as the
concrete two-edge-type call with a one-entry exclusion vector shows. -/
theorem C10_exclusion_length_unchecked (hg : HeteroGraph)
    (excl : List (List Nat)) (hne : excl ≠ []) :
    ((∃ hg2, excludeGraphEdges hg excl = Except.ok hg2) ↔
      hg.numEdgeTypes ≤ excl.length) ∧
    SampleNeighbors oracle0 gA [[0], [0]] [1, 1] EdgeDir.kOut [[], []]
      [[0]] false = Except.error "out-of-bounds access on exclude_edges" := by
  constructor
  · constructor
    · rintro ⟨hg2, h2⟩
      by_contra hlt
      push_neg at hlt
      obtain ⟨msg, hmsg⟩ := excludeGraphEdges_error_of_short hlt
      rw [hmsg] at h2
      exact Except.noConfusion h2
    · exact fun h => excludeGraphEdges_ok_of_length h
  · rfl

theorem C10_witness :
    ((∃ hg2, excludeGraphEdges gA [[5]] = Except.ok hg2) ↔
      gA.numEdgeTypes ≤ 1) ∧
    SampleNeighbors oracle0 gA [[0], [0]] [1, 1] EdgeDir.kOut [[], []]
      [[0]] false = Except.error "out-of-bounds access on exclude_edges" :=
  C10_exclusion_length_unchecked gA [[5]] (by decide)

/-- C8: every successful call to any of the three entry points returns a
subgraph whose meta-graph is identical to the input's, whose per-type vertex
counts equal the input's, whose induced-vertices structure has one reserved
but unpopulated (empty) entry per vertex type, and which carries exactly one
induced-edge-identity entry per edge type. -/
theorem C8_assembly_invariants (ch : Nat → Nat → Nat → Nat)
    (ch2 : Nat → Nat → Nat) (hg : HeteroGraph) (nodes : List (List Nat))
    (fanouts : List Int) (dir : EdgeDir) (prob : List FloatArray)
    (exclude_edges : List (List Nat)) (replace : Bool) (k : List Int)
    (weight : List FloatArray) (ascending : Bool) (nodesb : List Nat)
    (fanoutb : Int) (bias tag_offset : NDArray) :
    (∀ sg, SampleNeighbors ch hg nodes fanouts dir prob exclude_edges
        replace = Except.ok sg →
      sg.graph.metaGraph = hg.metaGraph ∧
      sg.graph.numVerticesPerType = hg.numVerticesPerType ∧
      sg.induced_vertices = List.replicate hg.numVertexTypes [] ∧
      sg.induced_edges.length = hg.numEdgeTypes) ∧
    (∀ sg, SampleNeighborsTopk hg nodes k dir weight ascending =
        Except.ok sg →
      sg.graph.metaGraph = hg.metaGraph ∧
      sg.graph.numVerticesPerType = hg.numVerticesPerType ∧
      sg.induced_vertices = List.replicate hg.numVertexTypes [] ∧
      sg.induced_edges.length = hg.numEdgeTypes) ∧
    (∀ sg, SampleNeighborsBiased ch2 hg nodesb fanoutb bias tag_offset dir
        replace = Except.ok sg →
      sg.graph.metaGraph = hg.metaGraph ∧
      sg.graph.numVerticesPerType = hg.numVerticesPerType ∧
      sg.induced_vertices = List.replicate hg.numVertexTypes [] ∧
      sg.induced_edges.length = hg.numEdgeTypes) := by
  refine ⟨?_, ?_, ?_⟩
  · intro sg h
    unfold SampleNeighbors at h
    split at h
    · exact Except.noConfusion h
    split at h
    · exact Except.noConfusion h
    split at h
    · exact Except.noConfusion h
    split at h
    · obtain ⟨h1, h2, h3, h4, _⟩ := SampleGraphNeighbors_ok_inv h
      exact ⟨h1, h2, h3, h4⟩
    · cases hex : excludeGraphEdges hg exclude_edges with
      | error e => rw [hex] at h; exact Except.noConfusion h
      | ok hg2 =>
        rw [hex] at h
        obtain ⟨h1, h2, h3, h4, _⟩ := SampleGraphNeighbors_ok_inv h
        obtain ⟨e1, e2, _, _, _, _, _, _⟩ := excludeGraphEdges_ok hex
        have hnv : hg2.numVertexTypes = hg.numVertexTypes := by
          unfold HeteroGraph.numVertexTypes
          rw [e2]
        have hne : hg2.numEdgeTypes = hg.numEdgeTypes := by
          unfold HeteroGraph.numEdgeTypes
          rw [e1]
        exact ⟨by rw [h1, e1], by rw [h2, e2], by rw [h3, hnv],
          by rw [h4, hne]⟩
  · intro sg h
    obtain ⟨h1, h2, h3, h4, _⟩ := SampleNeighborsTopk_ok_inv h
    exact ⟨h1, h2, h3, h4⟩
  · intro sg h
    obtain ⟨hnet, h1, h2, h3, u, ids, _, hie, _⟩ :=
      SampleNeighborsBiased_ok_inv h
    refine ⟨h1, h2, h3, ?_⟩
    rw [hie, hnet]
    rfl

theorem C8_witness :
    (sgA.graph.metaGraph = gA.metaGraph ∧
     sgA.graph.numVerticesPerType = gA.numVerticesPerType ∧
     sgA.induced_vertices = List.replicate gA.numVertexTypes [] ∧
     sgA.induced_edges.length = gA.numEdgeTypes) ∧
    (sgT.graph.metaGraph = gA.metaGraph ∧
     sgT.graph.numVerticesPerType = gA.numVerticesPerType ∧
     sgT.induced_vertices = List.replicate gA.numVertexTypes [] ∧
     sgT.induced_edges.length = gA.numEdgeTypes) ∧
    (sgB.graph.metaGraph = g1.metaGraph ∧
     sgB.graph.numVerticesPerType = g1.numVerticesPerType ∧
     sgB.induced_vertices = List.replicate g1.numVertexTypes [] ∧
     sgB.induced_edges.length = g1.numEdgeTypes) :=
  ⟨(C8_assembly_invariants oracle0 oracle2 gA [[0], [0]] [1, 1] EdgeDir.kOut
      [[], []] [] false [1, 1] [[], []] false [0] 1 ⟨[1], [5]⟩
      ⟨[2, 2], [0, 1, 0, 1]⟩).1 sgA (by rfl),
   (C8_assembly_invariants oracle0 oracle2 gA [[0], [0]] [1, 1] EdgeDir.kOut
      [[], []] [] false [1, 1] [[], []] false [0] 1 ⟨[1], [5]⟩
      ⟨[2, 2], [0, 1, 0, 1]⟩).2.1 sgT (by rfl),
   (C8_assembly_invariants oracle0 oracle2 g1 [[0]] [1] EdgeDir.kOut [[]]
      [] false [1] [[]] false [0] 1 ⟨[1], [5]⟩
      ⟨[2, 2], [0, 1, 0, 1]⟩).2.2 sgB (by rfl)⟩

/-- C2: an edge type whose fanout (or k) is 0 or whose relevant-side
frontier is empty yields the empty placeholder relation with the input
relation's source and destination vertex counts and no edges; its
induced-edge entry is the null marker; the biased entry point behaves the
same on its single edge type; and every other edge type's slot is computed
from its own fanout only, so it is unaffected by the quantity of the
degenerate type. -/
theorem C2_zero_fanout_or_empty_frontier (ch : Nat → Nat → Nat → Nat)
    (ch2 : Nat → Nat → Nat) (hg : HeteroGraph) (nodes : List (List Nat))
    (fanouts : List Int) (dir : EdgeDir) (prob : List FloatArray)
    (replace : Bool) (k : List Int) (weight : List FloatArray)
    (ascending : Bool) (etype : Nat) (hgb : HeteroGraph)
    (nodesb : List Nat) (fanoutb : Int) (biasb tagb : NDArray)
    (dirb : EdgeDir) (replaceb : Bool)
    (he : etype < hg.numEdgeTypes)
    (hz : relFrontier hg nodes dir etype = [] ∨ fanouts.getD etype 0 = 0)
    (hzk : relFrontier hg nodes dir etype = [] ∨ k.getD etype 0 = 0)
    (hb1 : hgb.numEdgeTypes = 1) (hb2 : tagb.shape.length = 2)
    (hb3 : tagb.shape.getD 0 0 =
      hgb.numVertices (biasedFrontierVtype hgb dirb))
    (hb4 : tagb.shape.getD 1 0 = biasb.shape.getD 0 0 + 1)
    (hzb : nodesb = [] ∨ fanoutb = 0) :
    sampleOneRel (ch etype) hg nodes (fanouts.getD etype 0) dir
        (prob.getD etype []) replace etype =
      Except.ok (UnitGraph.Empty (hg.relNumVtypes.getD etype 0)
        (hg.numVertices (hg.findEdge etype).1)
        (hg.numVertices (hg.findEdge etype).2), none) ∧
    topkOneRel hg nodes (k.getD etype 0) dir (weight.getD etype [])
        ascending etype =
      Except.ok (UnitGraph.Empty (hg.relNumVtypes.getD etype 0)
        (hg.numVertices (hg.findEdge etype).1)
        (hg.numVertices (hg.findEdge etype).2), none) ∧
    (∀ sg, SampleGraphNeighbors ch hg nodes fanouts dir prob replace =
        Except.ok sg →
      sg.induced_edges.getD etype none = none ∧ sg.graph.rel etype = []) ∧
    (∀ sg, SampleNeighborsTopk hg nodes k dir weight ascending =
        Except.ok sg →
      sg.induced_edges.getD etype none = none ∧ sg.graph.rel etype = []) ∧
    SampleNeighborsBiased ch2 hgb nodesb fanoutb biasb tagb dirb replaceb =
      Except.ok
        { graph := CreateHeteroGraph hgb.metaGraph
            [UnitGraph.Empty (hgb.relNumVtypes.getD 0 0)
              (hgb.numVertices (hgb.findEdge 0).1)
              (hgb.numVertices (hgb.findEdge 0).2)]
            hgb.numVerticesPerType
          induced_vertices := List.replicate hgb.numVertexTypes []
          induced_edges := [none] } ∧
    (∀ fanouts2 : List Int, ∀ j, j ≠ etype →
      fanouts2.getD j 0 = fanouts.getD j 0 →
      sampleOneRel (ch j) hg nodes (fanouts2.getD j 0) dir (prob.getD j [])
          replace j =
        sampleOneRel (ch j) hg nodes (fanouts.getD j 0) dir (prob.getD j [])
          replace j) ∧
    (∀ k2 : List Int, ∀ j, j ≠ etype → k2.getD j 0 = k.getD j 0 →
      topkOneRel hg nodes (k2.getD j 0) dir (weight.getD j []) ascending j =
        topkOneRel hg nodes (k.getD j 0) dir (weight.getD j [])
          ascending j) := by
  refine ⟨sampleOneRel_empty hz, topkOneRel_empty hzk, ?_, ?_, ?_, ?_, ?_⟩
  · intro sg h
    obtain ⟨_, _, _, _, h5⟩ := SampleGraphNeighbors_ok_inv h
    obtain ⟨u, ids, hone, hie, hrel⟩ := h5 etype he
    have heq := (sampleOneRel_empty hz).symm.trans hone
    injection heq with heq
    rw [Prod.mk.injEq] at heq
    obtain ⟨hu, hids⟩ := heq
    constructor
    · rw [getD_get?, hie, ← hids]
      rfl
    · show sg.graph.relations.getD etype [] = []
      rw [getD_get?, hrel, ← hu]
      rfl
  · intro sg h
    obtain ⟨_, _, _, _, h5⟩ := SampleNeighborsTopk_ok_inv h
    obtain ⟨u, ids, hone, hie, hrel⟩ := h5 etype he
    have heq := (topkOneRel_empty hzk).symm.trans hone
    injection heq with heq
    rw [Prod.mk.injEq] at heq
    obtain ⟨hu, hids⟩ := heq
    constructor
    · rw [getD_get?, hie, ← hids]
      rfl
    · show sg.graph.relations.getD etype [] = []
      rw [getD_get?, hrel, ← hu]
      rfl
  · unfold SampleNeighborsBiased
    rw [if_neg (fun hc => hc hb1), if_neg (fun hc => hc hb2),
      if_neg (fun hc => hc hb3), if_neg (fun hc => hc hb4),
      biasedOneRel_empty hzb]
  · intro fanouts2 j hj hagree
    rw [hagree]
  · intro k2 j hj hagree
    rw [hagree]

theorem C2_witness :
    (sampleOneRel (oracle0 0) gA [[0], [0]] 0 EdgeDir.kOut [] false 0 =
      Except.ok (UnitGraph.Empty (gA.relNumVtypes.getD 0 0)
        (gA.numVertices (gA.findEdge 0).1)
        (gA.numVertices (gA.findEdge 0).2), none)) ∧
    (sgZ.induced_edges.getD 0 none = none ∧ sgZ.graph.rel 0 = []) ∧
    (sgZT.induced_edges.getD 0 none = none ∧ sgZT.graph.rel 0 = []) := by
  have h := C2_zero_fanout_or_empty_frontier oracle0 oracle2 gA
    [[0], [0]] [0, 5] EdgeDir.kOut [[], []] false [0, 5] [[], []] false 0
    g1 [0] 0 ⟨[1], [5]⟩ ⟨[2, 2], [0, 1, 0, 1]⟩ EdgeDir.kOut false
    (by decide) (Or.inr (by decide)) (Or.inr (by decide)) (by decide)
    (by decide) (by decide) (by decide) (Or.inr rfl)
  exact ⟨h.1, h.2.2.1 sgZ (by rfl), h.2.2.2.1 sgZT (by rfl)⟩

/-- C1 counterexample, two concrete refutations of the claim as stated.
First, calling `SampleNeighbors` with `fanout = -1` and an empty frontier
returns the null induced-edge marker (the empty-placeholder rule wins), not
an induced-edge-identity array equal to the (empty) list of incident edge
identities as the claim, quantifying over every frontier, requires.
Second, the keep-all branch of `SampleNeighborsBiased` passes the
frontier-side node TYPE id (source line 232) instead of the frontier array
to the edge listing (source lines 254-256), so with frontier `[1]` on a
one-edge graph whose only edge leaves vertex 0 it returns the identity
array `[0]` — the listing for vertex 0, the type id — while the set of
edges incident to the frontier `[1]` in the outbound direction is empty. -/
theorem C1_counterexample :
    ((SampleNeighbors oracle0 g1 [[]] [-1] EdgeDir.kOut [[]] [] false).map
        (fun sg => sg.induced_edges.getD 0 none) = Except.ok none ∧
      (some ((specIncidentEdges g1 0 [] EdgeDir.kOut).map (fun t => t.2.2)) :
        Option (List Nat)) ≠ none) ∧
    ((SampleNeighborsBiased oracle2 g1 [1] (-1) ⟨[1], [5]⟩
        ⟨[2, 2], [0, 1, 0, 1]⟩ EdgeDir.kOut false).map
        (fun sg => sg.induced_edges.getD 0 none) = Except.ok (some [0]) ∧
      some ((specIncidentEdges g1 0 [1] EdgeDir.kOut).map (fun t => t.2.2)) ≠
        some [0]) :=
  ⟨⟨rfl, by decide⟩, ⟨rfl, by decide⟩⟩

/-- C1 (amended): for every graph, direction, and NON-EMPTY relevant
frontier, an edge type with fanout (or k) -1 yields, in `SampleNeighbors`
and `SampleNeighborsTopk`, exactly the set of edges incident to the frontier
in the requested direction, in original edge order with each edge exactly
once (the filter of the relation), and the induced-edge-identity entry is
exactly those edges' original identities.  (With an empty frontier the
empty-placeholder rule of C2 applies instead and the induced entry is the
null marker; and in `SampleNeighborsBiased` the keep-all branch passes the
frontier-side node type id rather than the frontier array to the edge
listing, so its keep-all output does not depend on the frontier's contents
and is not the frontier-incident edge set — both shown by the
counterexample.) -/
theorem C1_keep_all_amended (ch : Nat → Nat → Nat → Nat)
    (hg : HeteroGraph) (nodes : List (List Nat))
    (fanouts : List Int) (dir : EdgeDir) (prob : List FloatArray)
    (replace : Bool) (k : List Int) (weight : List FloatArray)
    (ascending : Bool) (etype : Nat)
    (he : etype < hg.numEdgeTypes)
    (hfan : fanouts.getD etype 0 = -1) (hk : k.getD etype 0 = -1)
    (hfr : relFrontier hg nodes dir etype ≠ []) :
    (∀ sg, SampleNeighbors ch hg nodes fanouts dir prob [] replace =
        Except.ok sg →
      sg.induced_edges.getD etype none =
        some ((specIncidentEdges hg etype
          (relFrontier hg nodes dir etype) dir).map (fun t => t.2.2)) ∧
      (sg.graph.rel etype).map (fun t => (t.1, t.2.1)) =
        (specIncidentEdges hg etype
          (relFrontier hg nodes dir etype) dir).map
          (fun t => (t.1, t.2.1))) ∧
    (∀ sg, SampleNeighborsTopk hg nodes k dir weight ascending =
        Except.ok sg →
      sg.induced_edges.getD etype none =
        some ((specIncidentEdges hg etype
          (relFrontier hg nodes dir etype) dir).map (fun t => t.2.2)) ∧
      (sg.graph.rel etype).map (fun t => (t.1, t.2.1)) =
        (specIncidentEdges hg etype
          (relFrontier hg nodes dir etype) dir).map
          (fun t => (t.1, t.2.1))) := by
  refine ⟨?_, ?_⟩
  · intro sg h
    unfold SampleNeighbors at h
    split at h
    · exact Except.noConfusion h
    split at h
    · exact Except.noConfusion h
    split at h
    · exact Except.noConfusion h
    split at h
    · obtain ⟨_, _, _, _, h5⟩ := SampleGraphNeighbors_ok_inv h
      obtain ⟨u, ids, hone, hie, hrel⟩ := h5 etype he
      have heq := (sampleOneRel_keep_all hfr hfan).symm.trans hone
      injection heq with heq
      rw [Prod.mk.injEq] at heq
      obtain ⟨hu, hids⟩ := heq
      constructor
      · rw [getD_get?, hie, ← hids, specIncidentEdges_eq]
        rfl
      · show (sg.graph.relations.getD etype []).map _ = _
        rw [getD_get?, hrel, specIncidentEdges_eq]
        show (List.map _ (u.edges.enum.map (fun p => (p.2.1, p.2.2, p.1)))) = _
        rw [freshIds_pairs, ← hu]
        show ((incidentEdges hg nodes dir etype).map (fun t => t.1)).zip
          ((incidentEdges hg nodes dir etype).map (fun t => t.2.1)) = _
        rw [zip_of_maps]
        rfl
    · rename_i hskip
      exact absurd rfl hskip
  · intro sg h
    obtain ⟨_, _, _, _, h5⟩ := SampleNeighborsTopk_ok_inv h
    obtain ⟨u, ids, hone, hie, hrel⟩ := h5 etype he
    have heq := (topkOneRel_keep_all hfr hk).symm.trans hone
    injection heq with heq
    rw [Prod.mk.injEq] at heq
    obtain ⟨hu, hids⟩ := heq
    constructor
    · rw [getD_get?, hie, ← hids, specIncidentEdges_eq]
      rfl
    · show (sg.graph.relations.getD etype []).map _ = _
      rw [getD_get?, hrel, specIncidentEdges_eq]
      show (List.map _ (u.edges.enum.map (fun p => (p.2.1, p.2.2, p.1)))) = _
      rw [freshIds_pairs, ← hu]
      show ((incidentEdges hg nodes dir etype).map (fun t => t.1)).zip
        ((incidentEdges hg nodes dir etype).map (fun t => t.2.1)) = _
      rw [zip_of_maps]
      rfl

theorem C1_witness :
    (sgK.induced_edges.getD 0 none =
      some ((specIncidentEdges gA 0
        (relFrontier gA [[0], [0]] EdgeDir.kOut 0) EdgeDir.kOut).map
        (fun t => t.2.2)) ∧
     (sgK.graph.rel 0).map (fun t => (t.1, t.2.1)) =
      (specIncidentEdges gA 0 (relFrontier gA [[0], [0]] EdgeDir.kOut 0)
        EdgeDir.kOut).map (fun t => (t.1, t.2.1))) ∧
    (sgKT.induced_edges.getD 0 none =
      some ((specIncidentEdges gA 0
        (relFrontier gA [[0], [0]] EdgeDir.kOut 0) EdgeDir.kOut).map
        (fun t => t.2.2)) ∧
     (sgKT.graph.rel 0).map (fun t => (t.1, t.2.1)) =
      (specIncidentEdges gA 0 (relFrontier gA [[0], [0]] EdgeDir.kOut 0)
        EdgeDir.kOut).map (fun t => (t.1, t.2.1))) := by
  have h := C1_keep_all_amended oracle0 gA [[0], [0]] [-1, -1]
    EdgeDir.kOut [[], []] false [-1, -1] [[], []] false 0
    (by decide) (by decide) (by decide) (by decide)
  exact ⟨h.1 sgK (by rfl), h.2 sgKT (by rfl)⟩

/-- C3: with a non-empty per-edge-type exclusion array (one entry per edge
type), the filtered copy keeps, per edge type, exactly the edges whose
identity is not excluded for that type — identities unchanged, and an
identity listed for one type has no effect on any other type, since each
filtered relation is determined by its own type's entry alone — and no
excluded identity appears in any induced-edge-identity array of the
sampling result. -/
theorem C3_exclusion_filtering (ch : Nat → Nat → Nat → Nat)
    (hg : HeteroGraph) (nodes : List (List Nat)) (fanouts : List Int)
    (dir : EdgeDir) (prob : List FloatArray)
    (exclude_edges : List (List Nat)) (replace : Bool)
    (hne : exclude_edges ≠ [])
    (hlen : exclude_edges.length = hg.numEdgeTypes) :
    (∀ hg2, excludeGraphEdges hg exclude_edges = Except.ok hg2 →
      ∀ etype, etype < hg.numEdgeTypes →
        hg2.rel etype = (hg.rel etype).filter
          (fun t => decide (t.2.2 ∉ exclude_edges.getD etype [])) ∧
        ∀ t ∈ hg.rel etype, t.2.2 ∉ exclude_edges.getD etype [] →
          t ∈ hg2.rel etype) ∧
    (∀ sg, SampleNeighbors ch hg nodes fanouts dir prob exclude_edges
        replace = Except.ok sg →
      ∀ etype ids, sg.induced_edges.getD etype none = some ids →
        ∀ i ∈ ids, i ∉ exclude_edges.getD etype []) := by
  constructor
  · intro hg2 hex etype he
    obtain ⟨_, _, _, _, _, _, _, hrel⟩ := excludeGraphEdges_ok hex
    refine ⟨hrel etype he, ?_⟩
    intro t ht hnot
    rw [hrel etype he]
    exact List.mem_filter.mpr ⟨ht, decide_eq_true hnot⟩
  · intro sg h etype ids hids i hi
    unfold SampleNeighbors at h
    split at h
    · exact Except.noConfusion h
    split at h
    · exact Except.noConfusion h
    split at h
    · exact Except.noConfusion h
    split at h
    · rename_i hskip
      exact absurd (List.isEmpty_iff.mp hskip) hne
    · cases hex : excludeGraphEdges hg exclude_edges with
      | error e => rw [hex] at h; exact Except.noConfusion h
      | ok hg2 =>
        rw [hex] at h
        obtain ⟨e1, _, _, _, _, _, _, hrel⟩ := excludeGraphEdges_ok hex
        have hnet : hg2.numEdgeTypes = hg.numEdgeTypes := by
          unfold HeteroGraph.numEdgeTypes
          rw [e1]
        obtain ⟨_, _, _, hlen4, h5⟩ := SampleGraphNeighbors_ok_inv h
        by_cases hlt : etype < hg2.numEdgeTypes
        · obtain ⟨u, ids2, hone, hie, _⟩ := h5 etype hlt
          rw [getD_get?, hie] at hids
          have hids2 : ids2 = some ids := hids
          rw [hids2] at hone
          obtain ⟨t, ht, hti⟩ := sampleOneRel_ids hone i hi
          rw [hrel etype (by omega)] at ht
          have := (List.mem_filter.mp ht).2
          rw [hti] at this
          exact of_decide_eq_true this
        · rw [getD_get?, List.get?_eq_none.mpr (by omega)] at hids
          exact Option.noConfusion hids

theorem C3_witness :
    (gAexcl.rel 0 = (gA.rel 0).filter
      (fun t => decide (t.2.2 ∉ ([[1], []] : List (List Nat)).getD 0 [])) ∧
     (((0, 0, 0) : Nat × Nat × Nat) ∈ gAexcl.rel 0)) ∧
    (0 : Nat) ∉ ([[1], []] : List (List Nat)).getD 0 [] := by
  have h := C3_exclusion_filtering oracle0 gA [[0], [0]] [-1, -1]
    EdgeDir.kOut [[], []] [[1], []] false (by decide) (by decide)
  have h1 := h.1 gAexcl (by rfl) 0 (by decide)
  exact ⟨⟨h1.1, h1.2 (0, 0, 0) (by decide) (by decide)⟩,
    h.2 sgX (by rfl) 0 [0] (by rfl) 0 (by decide)⟩

/-- C4 counterexample: an exclusion vector whose entries are all empty is
not skipped: the branch condition of the source (line 115) only tests
whether the vector itself is empty, so `[[]]` — all of its entries empty —
still takes the exclusion-filtering path. -/
theorem C4_counterexample :
    (∀ a ∈ ([[]] : List (List Nat)), a = []) ∧
    exclusionFilterSkipped [[]] = false := by
  decide

/-- C4 (amended): the exclusion-filtering copy is skipped exactly when the
exclusion vector itself has no entries; a well-formed non-empty vector all
of whose entries are empty is NOT skipped, but the filtering copy it builds
leaves the graph unchanged, so the call still returns the same result as
sampling directly against the original, unfiltered graph. -/
theorem C4_empty_exclusion_amended (ch : Nat → Nat → Nat → Nat)
    (hg : HeteroGraph) (nodes : List (List Nat)) (fanouts : List Int)
    (dir : EdgeDir) (prob : List FloatArray) (excl : List (List Nat))
    (replace : Bool)
    (hwf : hg.relations.length = hg.numEdgeTypes)
    (hall : ∀ a ∈ excl, a = [])
    (hlen : excl = [] ∨ excl.length = hg.numEdgeTypes) :
    (exclusionFilterSkipped excl = true ↔ excl = []) ∧
    SampleNeighbors ch hg nodes fanouts dir prob excl replace =
      SampleNeighbors ch hg nodes fanouts dir prob [] replace := by
  constructor
  · simp [exclusionFilterSkipped, List.isEmpty_iff]
  · by_cases hemp : excl = []
    · rw [hemp]
    · have hlen2 : excl.length = hg.numEdgeTypes := hlen.resolve_left hemp
      unfold SampleNeighbors
      by_cases h1 : nodes.length ≠ hg.numVertexTypes
      · rw [if_pos h1, if_pos h1]
      rw [if_neg h1, if_neg h1]
      by_cases h2 : fanouts.length ≠ hg.numEdgeTypes
      · rw [if_pos h2, if_pos h2]
      rw [if_neg h2, if_neg h2]
      by_cases h3 : prob.length ≠ hg.numEdgeTypes
      · rw [if_pos h3, if_pos h3]
      rw [if_neg h3, if_neg h3]
      rw [if_neg (show ¬(exclusionFilterSkipped excl = true) from
          fun hc => hemp (List.isEmpty_iff.mp hc)),
        if_pos (show exclusionFilterSkipped [] = true from rfl),
        excludeGraphEdges_all_empty hwf hall hlen2]

theorem C4_witness :
    (exclusionFilterSkipped [[], []] = true ↔
      ([[], []] : List (List Nat)) = []) ∧
    SampleNeighbors oracle0 gA [[0], [0]] [1, 1] EdgeDir.kOut [[], []]
        [[], []] false =
      SampleNeighbors oracle0 gA [[0], [0]] [1, 1] EdgeDir.kOut [[], []]
        [] false :=
  C4_empty_exclusion_amended oracle0 gA [[0], [0]] [1, 1] EdgeDir.kOut
    [[], []] [[], []] false (by decide) (by decide) (Or.inr (by decide))

/-- C7: a positive-fanout uniform-sampling call dispatched on a COO-format
relation with inbound direction returns exactly the composition
transpose-adjacency, row-wise-sample the transposed matrix on the frontier,
transpose the result back; and a call dispatched on a CSC-format relation
(inbound) transposes the kernel output exactly once, so every entry of the
returned COO is an original (row = source, column = destination, identity)
triple of the relation. -/
theorem C7_coo_csc_orientation (ch : Nat → Nat → Nat) (hg : HeteroGraph)
    (frontier : List Nat) (fanout : Int) (prob : FloatArray)
    (replace : Bool) (etype : Nat) :
    (hg.selectFormat etype EdgeDir.kIn = SparseFormat.kCOO →
      sampleDispatch ch hg frontier fanout EdgeDir.kIn prob replace etype =
        Except.ok (COOTranspose (rowWiseSampling ch
          (COOTranspose (hg.GetCOOMatrix etype)) frontier fanout prob
          replace))) ∧
    (hg.selectFormat etype EdgeDir.kIn = SparseFormat.kCSC →
      ∀ m, sampleDispatch ch hg frontier fanout EdgeDir.kIn prob replace
          etype = Except.ok m →
        ∀ t ∈ m.entries, t ∈ hg.rel etype) := by
  constructor
  · intro hfmt
    unfold sampleDispatch
    rw [hfmt]
    rfl
  · intro hfmt m hm t ht
    unfold sampleDispatch at hm
    rw [hfmt] at hm
    have hm2 : Except.ok (COOTranspose (rowWiseSampling ch
        (hg.GetCSCMatrix etype) frontier fanout prob replace)) =
        Except.ok m := hm
    injection hm2 with hm2
    subst hm2
    have h1 := mem_COOTranspose ht
    have h2 := rowWiseSampling_entries_subset h1
    have h3 := mem_COOTranspose h2
    exact h3

theorem C7_witness :
    sampleDispatch oracle2 g1 [0] 1 EdgeDir.kIn [] false 0 =
      Except.ok (COOTranspose (rowWiseSampling oracle2
        (COOTranspose (g1.GetCOOMatrix 0)) [0] 1 [] false)) ∧
    ((0, 1, 0) : Nat × Nat × Nat) ∈ gCSC.rel 0 :=
  ⟨(C7_coo_csc_orientation oracle2 g1 [0] 1 [] false 0).1 (by decide),
   (C7_coo_csc_orientation oracle2 gCSC [1] 1 [] false 0).2 (by decide)
     _ (by rfl) (0, 1, 0) (by decide)⟩

end DglSampling
